import Mathlib

/-!
Shallow embedding of `src/mmf/modules/detr/models/transformer.py` (the DETR
multi-task transformer of this repository) and proofs about its claims.

Modeling conventions.

* A rank-n tensor is a record of its dimension sizes together with a total
  indexing function; entries at out-of-range indices are irrelevant.  The
  entry type `R` is abstract (instantiated with `ℚ` for concrete runs).
* Per the specification's scope, the numeric kernels (multi-head attention,
  layer normalization, linear maps, dropout, the feed-forward body) are
  external collaborators.  An encoder or decoder layer is therefore an opaque
  operator bundled with the one interface fact the library guarantees and the
  spec states ("produce a same-shaped output sequence"): the output has the
  dimensions of its (query-side) input.  All the orchestration code of the
  source file — flattening, permuting, concatenation, task-embedding
  prefixing and stripping, encoder/decoder stacking loops, the decoder
  registry and `MTTransformer.forward` — is translated statement by
  statement.
* Python run-time failures on the modeled paths are explicit via
  `Except PyErr`.
* `TransformerDecoder` is constructed with `decoder_norm = nn.LayerNorm(...)`
  at both construction sites of the source (`Transformer.__init__`, line 61,
  and `MTTransformer.build_decoder_layer`, line 196), so its final
  normalization is modeled as always present (the source's
  `if self.norm is not None` test on a decoder is always true).  The
  encoder's final normalization is genuinely optional (line 46) and is
  modeled as such.
-/

namespace MMF

/-- Errors raised by the Python code paths modeled here. -/
inductive PyErr where
  /-- `raise NotImplementedError()`, line 275. -/
  | notImplemented
  /-- `self.decoders[task_type][dataset_name]` with an unknown key, line 277. -/
  | keyError
  /-- `torch.cat` applied to an empty list of tensors, lines 279-281. -/
  | catEmpty
  /-- an operation applied to `None` (subscripting `None`, `torch.cat` over a
  list containing `None`, `nn.Linear` applied to `None`). -/
  | noneType
  /-- `list.pop()` on an empty list (line 396 with zero layers) or indexing a
  rank-3 tensor with four indices (line 292 when the decoder returned a single
  tensor). -/
  | indexError
  /-- reading the local `tgt` when no branch ever assigned it. -/
  | unboundLocal
  deriving DecidableEq

/-- Rank-2 tensor of `R` entries: dimension sizes plus a total indexing map. -/
structure T2 (R : Type) where
  d0 : Nat
  d1 : Nat
  at2 : Nat → Nat → R

/-- Rank-3 tensor of `R` entries. -/
structure T3 (R : Type) where
  d0 : Nat
  d1 : Nat
  d2 : Nat
  at3 : Nat → Nat → Nat → R

/-- Rank-4 tensor of `R` entries. -/
structure T4 (R : Type) where
  d0 : Nat
  d1 : Nat
  d2 : Nat
  d3 : Nat
  at4 : Nat → Nat → Nat → Nat → R

/-- Rank-2 boolean padding mask (`True` = padding). -/
structure M2 where
  d0 : Nat
  d1 : Nat
  at2 : Nat → Nat → Bool

/-- Rank-3 boolean padding mask, as supplied with a spatial image input. -/
structure M3 where
  d0 : Nat
  d1 : Nat
  d2 : Nat
  at3 : Nat → Nat → Nat → Bool

/-- Rank-2 integer tensor: the raw text mask, whose sentinel value `1` marks a
non-padding position (line 266). -/
structure TI2 where
  d0 : Nat
  d1 : Nat
  at2 : Nat → Nat → Int

/-- Shape of a rank-2 tensor as a list of dimension sizes. -/
def T2.shape2 {R : Type} (x : T2 R) : List Nat := [x.d0, x.d1]

/-- Shape of a rank-3 tensor as a list of dimension sizes. -/
def T3.shape3 {R : Type} (x : T3 R) : List Nat := [x.d0, x.d1, x.d2]

/-- Shape of a rank-4 tensor as a list of dimension sizes. -/
def T4.shape4 {R : Type} (x : T4 R) : List Nat := [x.d0, x.d1, x.d2, x.d3]

/-- `x.flatten(2)` on a rank-4 tensor: merge the last two axes row-major. -/
def T4.flatten2 {R : Type} (x : T4 R) : T3 R :=
  ⟨x.d0, x.d1, x.d2 * x.d3, fun b c s => x.at4 b c (s / x.d3) (s % x.d3)⟩

/-- `x.permute(2, 0, 1)` on a rank-3 tensor. -/
def T3.perm201 {R : Type} (x : T3 R) : T3 R :=
  ⟨x.d2, x.d0, x.d1, fun s b c => x.at3 b c s⟩

/-- `x.permute(1, 2, 0)` on a rank-3 tensor. -/
def T3.perm120 {R : Type} (x : T3 R) : T3 R :=
  ⟨x.d1, x.d2, x.d0, fun b c s => x.at3 s b c⟩

/-- `x.permute(1, 0, 2)` on a rank-3 tensor; also `transpose(1, 2)` applied to
one slice of a stacked rank-4 tensor. -/
def T3.perm102 {R : Type} (x : T3 R) : T3 R :=
  ⟨x.d1, x.d0, x.d2, fun i j k => x.at3 j i k⟩

/-- `mask.flatten(1)` on a rank-3 mask. -/
def M3.flatten1 (m : M3) : M2 :=
  ⟨m.d0, m.d1 * m.d2, fun b s => m.at3 b (s / m.d2) (s % m.d2)⟩

/-- `x.unsqueeze(1).repeat(1, bs, 1)` on a rank-2 tensor: broadcast a
(sequence × channel) tensor over a batch axis inserted at position 1. -/
def T2.bcast1 {R : Type} (x : T2 R) (bs : Nat) : T3 R :=
  ⟨x.d0, bs, x.d1, fun s _ c => x.at2 s c⟩

/-- `torch.zeros_like(x)` on a rank-3 tensor. -/
def T3.zerosLike {R : Type} [Zero R] (x : T3 R) : T3 R :=
  ⟨x.d0, x.d1, x.d2, fun _ _ _ => 0⟩

/-- Pointwise tensor addition (`a + b`); dimensions taken from the left
operand, which equals the right operand's dimensions at every use site. -/
def T3.addT {R : Type} [Add R] (a b : T3 R) : T3 R :=
  ⟨a.d0, a.d1, a.d2, fun i j k => a.at3 i j k + b.at3 i j k⟩

/-- Scalar multiple of a rank-3 tensor (the source's float literal `0.1` is
modeled as the rational `1/10`; no claim depends on its value). -/
def T3.smulQ {R : Type} [SMul ℚ R] (c : ℚ) (x : T3 R) : T3 R :=
  ⟨x.d0, x.d1, x.d2, fun i j k => c • x.at3 i j k⟩

/-- `torch.cat([v_broadcast, x], dim=0)` where `v` is one model-dimension
vector broadcast over the batch: prepend one sequence position. -/
def T3.prepend0 {R : Type} (v : Nat → R) (x : T3 R) : T3 R :=
  ⟨x.d0 + 1, x.d1, x.d2, fun s b c => if s = 0 then v c else x.at3 (s - 1) b c⟩

/-- `x[k:]` on a rank-3 tensor: drop `k` leading sequence positions. -/
def T3.dropD0 {R : Type} (k : Nat) (x : T3 R) : T3 R :=
  ⟨x.d0 - k, x.d1, x.d2, fun s b c => x.at3 (s + k) b c⟩

/-- `x[:, k:, :]` on a rank-3 tensor: drop `k` leading positions of axis 1. -/
def T3.dropD1 {R : Type} (k : Nat) (x : T3 R) : T3 R :=
  ⟨x.d0, x.d1 - k, x.d2, fun i j c => x.at3 i (j + k) c⟩

/-- `torch.cat([a, b], dim=0)` on rank-3 tensors (sequence-first layout). -/
def T3.catD0 {R : Type} (a b : T3 R) : T3 R :=
  ⟨a.d0 + b.d0, a.d1, a.d2,
   fun s i j => if s < a.d0 then a.at3 s i j else b.at3 (s - a.d0) i j⟩

/-- `torch.cat([pad_column, m], dim=1)` on a rank-2 mask: prepend one column
holding `v` at every batch row. -/
def M2.prependCol (v : Bool) (m : M2) : M2 :=
  ⟨m.d0, m.d1 + 1, fun b s => if s = 0 then v else m.at2 b (s - 1)⟩

/-- `m[:, k:]` on a rank-2 mask. -/
def M2.dropD1 (k : Nat) (m : M2) : M2 :=
  ⟨m.d0, m.d1 - k, fun b s => m.at2 b (s + k)⟩

/-- `torch.cat([a, b], dim=-1)` on rank-2 masks. -/
def M2.catD1 (a b : M2) : M2 :=
  ⟨a.d0, a.d1 + b.d1,
   fun i s => if s < a.d1 then a.at2 i s else b.at2 i (s - a.d1)⟩

/-- `text_mask != 1` (line 266): the boolean padding mask derived from the raw
integer text mask, whose sentinel `1` means "not padding". -/
def TI2.neqOne (m : TI2) : M2 :=
  ⟨m.d0, m.d1, fun b s => m.at2 b s != 1⟩

/-- One `TransformerEncoderLayer` as an opaque external operator over
(src, src_key_padding_mask, pos), bundled with its interface contract: the
output has the dimensions of `src` (spec §4.1, "produce a same-shaped output
sequence"). -/
structure EncoderLayerOp (R : Type) where
  run : T3 R → M2 → Option (T3 R) → T3 R
  run_d0 : ∀ s mk p, (run s mk p).d0 = s.d0
  run_d1 : ∀ s mk p, (run s mk p).d1 = s.d1
  run_d2 : ∀ s mk p, (run s mk p).d2 = s.d2

/-- One `TransformerDecoderLayer` as an opaque external operator over
(tgt, memory, memory_key_padding_mask, pos, query_pos), with the same
shape contract on the `tgt` side. -/
structure DecoderLayerOp (R : Type) where
  run : T3 R → T3 R → M2 → Option (T3 R) → Option (T3 R) → T3 R
  run_d0 : ∀ t m mk p q, (run t m mk p q).d0 = t.d0
  run_d1 : ∀ t m mk p q, (run t m mk p q).d1 = t.d1
  run_d2 : ∀ t m mk p q, (run t m mk p q).d2 = t.d2

/-- An `nn.LayerNorm` instance as an opaque shape-preserving operator. -/
structure NormOp (R : Type) where
  f : T3 R → T3 R
  f_d0 : ∀ x, (f x).d0 = x.d0
  f_d1 : ∀ x, (f x).d1 = x.d1
  f_d2 : ∀ x, (f x).d2 = x.d2

/-- An `nn.Linear(d_in, outDim)` instance as an opaque operator preserving the
sequence and batch axes and mapping the channel axis to `outDim`. -/
structure LinearOp (R : Type) where
  outDim : Nat
  run : T3 R → T3 R
  run_d0 : ∀ x, (run x).d0 = x.d0
  run_d1 : ∀ x, (run x).d1 = x.d1
  run_d2 : ∀ x, (run x).d2 = outDim

/-- `TransformerEncoder` (lines 326-353): a stack of layers plus an optional
final normalization. -/
structure TransformerEncoder (R : Type) where
  layers : List (EncoderLayerOp R)
  norm : Option (NormOp R)

/-- `TransformerEncoder.forward` (lines 333-353). -/
def TransformerEncoder.forward {R : Type} (e : TransformerEncoder R)
    (src : T3 R) (src_key_padding_mask : M2) (pos : Option (T3 R)) : T3 R :=
  let output := e.layers.foldl (fun o l => l.run o src_key_padding_mask pos) src
  match e.norm with
  | some n => n.f output
  | none => output

/-- `TransformerDecoder` (lines 356-362): a stack of layers, a final
normalization (always a `nn.LayerNorm` in this repository, see the file
header), and the intermediate-return flag. -/
structure TransformerDecoder (R : Type) where
  layers : List (DecoderLayerOp R)
  norm : NormOp R
  return_intermediate : Bool

/-- One iteration of the loop of `TransformerDecoder.forward` (lines
379-391): run the layer on the current `output`, and append `self.norm` of
the new output to `intermediate` when intermediate collection is enabled. -/
def decStep {R : Type} (memory : T3 R) (mask : M2) (pos query_pos : Option (T3 R))
    (norm : NormOp R) (return_intermediate : Bool) :
    T3 R × List (T3 R) → DecoderLayerOp R → T3 R × List (T3 R) :=
  fun st l =>
    let output := l.run st.1 memory mask pos query_pos
    (output, if return_intermediate then st.2 ++ [norm.f output] else st.2)

/-- The loop of `TransformerDecoder.forward` (lines 379-391): thread `output`
through the layers, accumulating the intermediate list. -/
def TransformerDecoder.runLayers {R : Type} (d : TransformerDecoder R)
    (tgt memory : T3 R) (mask : M2) (pos query_pos : Option (T3 R)) :
    T3 R × List (T3 R) :=
  d.layers.foldl (decStep memory mask pos query_pos d.norm d.return_intermediate)
    (tgt, [])

/-- The decoder's last-layer output before the final normalization: the plain
fold of the layers over `tgt`. -/
def TransformerDecoder.rawOutput {R : Type} (d : TransformerDecoder R)
    (tgt memory : T3 R) (mask : M2) (pos query_pos : Option (T3 R)) : T3 R :=
  d.layers.foldl (fun o l => l.run o memory mask pos query_pos) tgt

/-- `TransformerDecoder.forward` (lines 364-402).  After the loop the final
normalization is applied to `output`; with intermediate collection enabled the
last captured entry is popped (an `IndexError` if the stack is empty, i.e.
with zero layers) and replaced by the final-normalized value, and the stacked
list is returned (`Sum.inr`); otherwise only the final output is returned
(`Sum.inl`). -/
def TransformerDecoder.forward {R : Type} (d : TransformerDecoder R)
    (tgt memory : T3 R) (memory_key_padding_mask : M2)
    (pos query_pos : Option (T3 R)) : Except PyErr (T3 R ⊕ List (T3 R)) :=
  let st := d.runLayers tgt memory memory_key_padding_mask pos query_pos
  let output := d.norm.f st.1
  if d.return_intermediate then
    match st.2 with
    | [] => .error .indexError
    | intermediate => .ok (.inr (intermediate.dropLast ++ [output]))
  else .ok (.inl output)

/-- The torch functional bound by `_get_activation_fn`. -/
inductive ActivationKind where
  | relu
  | gelu
  | glu
  deriving DecidableEq

/-- `_get_activation_fn` (lines 630-638): dispatch an activation name to its
functional, or raise `RuntimeError` with the source's exact message. -/
def get_activation_fn (activation : String) : Except String ActivationKind :=
  if activation = "relu" then .ok .relu
  else if activation = "gelu" then .ok .gelu
  else if activation = "glu" then .ok .glu
  else .error ("activation should be relu/gelu, not " ++ activation ++ ".")

/-- The `args` configuration fields read by `MTTransformer`: the residual
flag, the two task-embedding toggles, and the static task → datasets
enumeration (`args.num_queries`, whose keys the source iterates to build the
decoder registry). -/
structure Args where
  residual_in_encoder : Bool
  use_task_embedding_in_encoder : Bool
  use_task_embedding_in_decoder : Bool
  num_queries : List (String × List String)

/-- `MTTransformer` (lines 114-180).  `decoder` is the canonical decoder built
by `Transformer.__init__`; `fresh_decoder` models `build_decoder_layer`, which
constructs a fresh, independently parameterized decoder for a (task, dataset)
pair when decoders are not shared; `task_embeddings_enc`/`dec` are the
embedding tables (`nn.Embedding(256, d)` weights, indexed by task index then
channel; the 256-entry capacity is immaterial to the claims); the two
`LinearOp`s are the projections used when the encoder and decoder model
dimensions differ (lines 51-56). -/
structure MTTransformer (R : Type) where
  args : Args
  pass_pos_and_query : Bool
  share_decoders : Bool
  d_model_enc : Nat
  d_model_dec : Nat
  encoder : TransformerEncoder R
  enc2dec_linear : LinearOp R
  pos_embed_linear : LinearOp R
  decoder : TransformerDecoder R
  fresh_decoder : String → String → TransformerDecoder R
  task_embeddings_enc : Nat → Nat → R
  task_embeddings_dec : Nat → Nat → R

/-- Line 179: strip index for the encoder memory. -/
def MTTransformer.mem_out_begin_idx {R : Type} (m : MTTransformer R) : Nat :=
  if m.args.use_task_embedding_in_encoder then 1 else 0

/-- Line 180: strip index for the decoder hidden states. -/
def MTTransformer.hs_out_begin_idx {R : Type} (m : MTTransformer R) : Nat :=
  if m.args.use_task_embedding_in_decoder then 1 else 0

/-- Lines 151-169: the decoder registry.  With `share_decoders` every
(task, dataset) entry is the one canonical decoder; otherwise each pair gets
its own freshly built decoder. -/
def buildDecoders {R : Type} (share_decoders : Bool) (decoder : TransformerDecoder R)
    (fresh : String → String → TransformerDecoder R)
    (num_queries : List (String × List String)) :
    List (String × List (String × TransformerDecoder R)) :=
  num_queries.map fun p =>
    (p.1, p.2.map fun ds => (ds, if share_decoders then decoder else fresh p.1 ds))

/-- The registry `self.decoders` held by the model. -/
def MTTransformer.decoders {R : Type} (m : MTTransformer R) :
    List (String × List (String × TransformerDecoder R)) :=
  buildDecoders m.share_decoders m.decoder m.fresh_decoder m.args.num_queries

/-- `self.decoders[task_type][dataset_name]` (line 277) as an exact-match
two-level lookup; `none` models the `KeyError`. -/
def MTTransformer.lookupDecoder {R : Type} (m : MTTransformer R)
    (task_type dataset_name : String) : Option (TransformerDecoder R) :=
  match (m.decoders).lookup task_type with
  | none => none
  | some td => td.lookup dataset_name

/-- `_prefix_task_embedding_to_query_embed` (lines 296-304). -/
def MTTransformer.prefix_task_embedding_to_query_embed {R : Type}
    (m : MTTransformer R) (query_embed : T3 R) (task_idx : Nat) : T3 R :=
  if !m.args.use_task_embedding_in_decoder then query_embed
  else T3.prepend0 (m.task_embeddings_dec task_idx) query_embed

/-- `_prefix_task_embedding_to_encoder_inputs` (lines 306-323).  Prepend the
task embedding to the source, a non-padding entry to the mask, and a zero
slice to the positional embedding; subscripting a `None` positional embedding
(possible on the image-only `pass_pos_and_query=False` path) raises. -/
def MTTransformer.prefix_task_embedding_to_encoder_inputs {R : Type} [Zero R]
    (m : MTTransformer R) (img_src : T3 R) (img_mask : M2)
    (img_pos : Option (T3 R)) (task_idx : Nat) :
    Except PyErr (T3 R × M2 × Option (T3 R)) :=
  if !m.args.use_task_embedding_in_encoder then .ok (img_src, img_mask, img_pos)
  else
    let src := T3.prepend0 (m.task_embeddings_enc task_idx) img_src
    let mask := M2.prependCol false img_mask
    match img_pos with
    | none => .error .noneType
    | some p => .ok (src, mask, some (T3.prepend0 (fun _ => (0 : R)) p))

/-- Lines 227-240, the `if text_src is None` block of the image branch: with
no text stream, broadcast the query set over the batch, prefix the decoder
task embedding, and either zero-initialize `tgt` (`pass_pos_and_query`) or
fold the scaled positional embedding into the source and null out
`query_embed`/`img_pos`.  Returns (img_src, img_pos, tgt, query_embed); the
latter two stay unassigned (`none`) when text is present. -/
def MTTransformer.imgTargetPrep {R : Type} [Zero R] [Add R] [SMul ℚ R]
    (m : MTTransformer R) (img_src img_pos : T3 R) (query_embed : T2 R)
    (text_present : Bool) (task_idx : Nat) :
    T3 R × Option (T3 R) × Option (T3 R) × Option (T3 R) :=
  if text_present then (img_src, some img_pos, none, none)
  else
    let qe := m.prefix_task_embedding_to_query_embed
      (query_embed.bcast1 img_src.d1) task_idx
    if m.pass_pos_and_query then
      (img_src, some img_pos, some (T3.zerosLike qe), some qe)
    else
      (T3.addT img_src (T3.smulQ ((1 : ℚ)/10) img_pos), none, some qe, none)

/-- Lines 223-226 and 241-243 composed: the inputs on which the encoder is
actually run (after flatten/permute, the target-preparation block, and
task-embedding prefixing). -/
def MTTransformer.encoderInputs {R : Type} [Zero R] [Add R] [SMul ℚ R]
    (m : MTTransformer R) (img_src : T4 R) (img_mask : M3) (img_pos : T4 R)
    (query_embed : T2 R) (text_present : Bool) (task_idx : Nat) :
    Except PyErr (T3 R × M2 × Option (T3 R)) :=
  let s0 := img_src.flatten2.perm201
  let p0 := img_pos.flatten2.perm201
  let mk0 := img_mask.flatten1
  let prep := m.imgTargetPrep s0 p0 query_embed text_present task_idx
  m.prefix_task_embedding_to_encoder_inputs prep.1 mk0 prep.2.1 task_idx

/-- Lines 222-259, the image branch of `MTTransformer.forward`: run the
encoder on the prefixed inputs, strip the injected prefix position from
source, positions, mask and memory (lines 246-250), optionally add the
encoder residual (lines 252-253), and apply the encoder→decoder projections
(lines 255-256).  Returns (memory, img_pos, img_mask, tgt, query_embed). -/
def MTTransformer.imgBranch {R : Type} [Zero R] [Add R] [SMul ℚ R]
    (m : MTTransformer R) (img_src : T4 R) (img_mask : M3) (img_pos : T4 R)
    (query_embed : T2 R) (text_present : Bool) (task_idx : Nat) :
    Except PyErr (T3 R × Option (T3 R) × M2 × Option (T3 R) × Option (T3 R)) :=
  let s0 := img_src.flatten2.perm201
  let p0 := img_pos.flatten2.perm201
  let prep := m.imgTargetPrep s0 p0 query_embed text_present task_idx
  let tgt := prep.2.2.1
  let qe := prep.2.2.2
  match m.encoderInputs img_src img_mask img_pos query_embed text_present task_idx with
  | .error e => .error e
  | .ok (s2, mk2, p2) =>
    let memory0 := m.encoder.forward s2 mk2 p2
    let strip : Except PyErr (T3 R × Option (T3 R) × M2 × T3 R) :=
      if m.mem_out_begin_idx ≠ 0 then
        match p2 with
        | none => .error .noneType
        | some p =>
          .ok (s2.dropD0 m.mem_out_begin_idx, some (p.dropD0 m.mem_out_begin_idx),
               mk2.dropD1 m.mem_out_begin_idx, memory0.dropD0 m.mem_out_begin_idx)
      else .ok (s2, p2, mk2, memory0)
    match strip with
    | .error e => .error e
    | .ok (s3, p3, mk3, memory1) =>
      let memory2 := if m.args.residual_in_encoder then T3.addT s3 memory1 else memory1
      let memory3 :=
        if m.d_model_enc = m.d_model_dec then memory2 else m.enc2dec_linear.run memory2
      let p4 : Except PyErr (Option (T3 R)) :=
        if m.d_model_enc = m.d_model_dec then .ok p3
        else
          match p3 with
          | none => .error .noneType
          | some p => .ok (some (m.pos_embed_linear.run p))
      match p4 with
      | .error e => .error e
      | .ok p5 => .ok (memory3, p5, mk3, tgt, qe)

/-- The local accumulator state of `MTTransformer.forward` just before the
decoder call: the `memories`, `pos_embeds` and `masks` lists (lines 218-220)
plus the `tgt` and `query_embed` locals (`none` = unassigned / Python
`None`). -/
structure GatherState (R : Type) where
  memories : List (T3 R)
  pos_embeds : List (Option (T3 R))
  masks : List M2
  tgt : Option (T3 R)
  query_embed : Option (T3 R)

/-- Lines 261-275, the text branch of `MTTransformer.forward`: permute the
text source to sequence-first layout, append it with its broadcast positional
embedding and derived boolean mask, rebuild the query embedding at the text
batch size, and zero-initialize `tgt` — or raise `NotImplementedError` when
`pass_pos_and_query` is false. -/
def MTTransformer.textBranch {R : Type} [Zero R]
    (m : MTTransformer R) (st : GatherState R)
    (text : Option (T3 R × TI2 × T2 R)) (query_embed : T2 R) (task_idx : Nat) :
    Except PyErr (GatherState R) :=
  match text with
  | none => .ok st
  | some (text_src, text_mask, text_pos) =>
    let tsrc := text_src.perm102
    let tpos := text_pos.bcast1 tsrc.d1
    let qe := m.prefix_task_embedding_to_query_embed
      (query_embed.bcast1 tsrc.d1) task_idx
    if m.pass_pos_and_query then
      .ok ⟨st.memories ++ [tsrc], st.pos_embeds ++ [some tpos],
           st.masks ++ [text_mask.neqOne], some (T3.zerosLike qe), some qe⟩
    else .error .notImplemented

/-- Lines 218-275: run the image branch (when an image input is present) and
then the text branch, accumulating the pre-decoder state. -/
def MTTransformer.gather {R : Type} [Zero R] [Add R] [SMul ℚ R]
    (m : MTTransformer R) (img : Option (T4 R × M3 × T4 R))
    (text : Option (T3 R × TI2 × T2 R)) (query_embed : T2 R) (task_idx : Nat) :
    Except PyErr (GatherState R) :=
  match img with
  | none => m.textBranch ⟨[], [], [], none, none⟩ text query_embed task_idx
  | some (img_src, img_mask, img_pos) =>
    match m.imgBranch img_src img_mask img_pos query_embed text.isSome task_idx with
    | .error e => .error e
    | .ok (memory, p, msk, tgt, qe) =>
      m.textBranch ⟨[memory], [p], [msk], tgt, qe⟩ text query_embed task_idx

/-- `torch.cat(tensors)` along the sequence axis; empty input raises. -/
def catT3 {R : Type} : List (T3 R) → Except PyErr (T3 R)
  | [] => .error .catEmpty
  | t :: ts => .ok (ts.foldl T3.catD0 t)

/-- `torch.cat(masks, dim=-1)`; empty input raises. -/
def catM2 : List M2 → Except PyErr M2
  | [] => .error .catEmpty
  | mk :: ms => .ok (ms.foldl M2.catD1 mk)

/-- `torch.cat(pos_embeds)`: a `None` entry raises `TypeError` (reachable on
the image-only `pass_pos_and_query=False` path), an empty list raises. -/
def catPos {R : Type} (ps : List (Option (T3 R))) : Except PyErr (T3 R) :=
  match ps.mapM id with
  | none => .error .noneType
  | some l => catT3 l

/-- Lines 277-294 of `MTTransformer.forward`, from the gathered pre-decoder
state: look up the decoder by (task_type, dataset_name) (line 277),
concatenate memories, masks and positional embeddings (lines 279-281), run
the decoder (lines 283-289), transpose the stacked hidden states and strip
the injected decoder prefix (lines 290-292; indexing a rank-3 result with
four indices raises), and return the hidden states together with the fused
memory permuted to (batch × channel × sequence) (line 294). -/
def MTTransformer.postGather {R : Type} (m : MTTransformer R) (st : GatherState R)
    (task_type dataset_name : String) : Except PyErr (List (T3 R) × T3 R) :=
  match m.lookupDecoder task_type dataset_name with
  | none => .error .keyError
  | some decoder =>
    match catT3 st.memories with
    | .error e => .error e
    | .ok memories =>
      match catM2 st.masks with
      | .error e => .error e
      | .ok masks =>
        match catPos st.pos_embeds with
        | .error e => .error e
        | .ok pos_embeds =>
          match st.tgt with
          | none => .error .unboundLocal
          | some tgt =>
            match decoder.forward tgt memories masks (some pos_embeds) st.query_embed with
            | .error e => .error e
            | .ok (.inl _) => .error .indexError
            | .ok (.inr hsStack) =>
              .ok (hsStack.map fun u => (u.perm102).dropD1 m.hs_out_begin_idx,
                   memories.perm120)

/-- `MTTransformer.forward` (lines 204-294): gather the image and text
branches (lines 218-275), then run the decoding tail (lines 277-294). -/
def MTTransformer.forward {R : Type} [Zero R] [Add R] [SMul ℚ R]
    (m : MTTransformer R) (img : Option (T4 R × M3 × T4 R))
    (text : Option (T3 R × TI2 × T2 R)) (query_embed : T2 R)
    (task_type dataset_name : String) (task_idx : Nat) :
    Except PyErr (List (T3 R) × T3 R) :=
  match m.gather img text query_embed task_idx with
  | .error e => .error e
  | .ok st => m.postGather st task_type dataset_name

/-!
Concrete instantiation used by witnesses and counterexamples: entry type `ℚ`
and identity-like kernels.  Any kernels satisfying the interface contracts
would do — the claims' theorems are quantified over them; the concrete ones
below exist so that hypotheses can be discharged on explicit runs.
-/

/-- A concrete encoder layer: the identity operator (satisfies the shape
contract trivially). -/
def idEncLayer : EncoderLayerOp ℚ :=
  ⟨fun s _ _ => s, fun _ _ _ => rfl, fun _ _ _ => rfl, fun _ _ _ => rfl⟩

/-- A concrete decoder layer: the identity on the target side. -/
def idDecLayer : DecoderLayerOp ℚ :=
  ⟨fun t _ _ _ _ => t, fun _ _ _ _ _ => rfl, fun _ _ _ _ _ => rfl,
   fun _ _ _ _ _ => rfl⟩

/-- A concrete normalization operator: the identity. -/
def idNorm : NormOp ℚ := ⟨fun x => x, fun _ => rfl, fun _ => rfl, fun _ => rfl⟩

/-- A concrete linear operator mapping the channel axis to `n`. -/
def constLinear (n : Nat) : LinearOp ℚ :=
  ⟨n, fun x => ⟨x.d0, x.d1, n, fun _ _ _ => 0⟩, fun _ => rfl, fun _ => rfl,
   fun _ => rfl⟩

/-- A concrete decoder with `numLayers` identity layers. -/
def wDecoder (numLayers : Nat) (return_intermediate : Bool) :
    TransformerDecoder ℚ :=
  ⟨List.replicate numLayers idDecLayer, idNorm, return_intermediate⟩

/-- A concrete encoder with `numLayers` identity layers and no final norm
(`normalize_before=False`, the construction default). -/
def wEncoder (numLayers : Nat) : TransformerEncoder ℚ :=
  ⟨List.replicate numLayers idEncLayer, none⟩

/-- A concrete model: dimensions 8/8, 2 encoder and 2 decoder layers,
intermediate return enabled (as `build_transformer` hardcodes). -/
def wModel (ppq share res ue ud : Bool) (nq : List (String × List String)) :
    MTTransformer ℚ :=
  ⟨⟨res, ue, ud, nq⟩, ppq, share, 8, 8, wEncoder 2, constLinear 8, constLinear 8,
   wDecoder 2 true, fun _ _ => wDecoder 2 true, fun _ _ => 0, fun _ _ => 1⟩

/-- A concrete image input: batch 1, 8 channels, a 2×2 spatial grid. -/
def wImg : T4 ℚ × M3 × T4 ℚ :=
  (⟨1, 8, 2, 2, fun _ _ _ _ => 1⟩, ⟨1, 2, 2, fun _ _ h => h == 1⟩,
   ⟨1, 8, 2, 2, fun _ _ _ _ => 0⟩)

/-- A concrete text input: batch 1, 3 tokens, 8 channels; the last token is
padding (mask value 0, sentinel 1 = not padding). -/
def wText : T3 ℚ × TI2 × T2 ℚ :=
  (⟨1, 3, 8, fun _ _ _ => 1⟩, ⟨1, 3, fun _ s => if s = 2 then 0 else 1⟩,
   ⟨3, 8, fun _ _ => 0⟩)

/-- A concrete query set: 5 queries of dimension 8. -/
def wQE : T2 ℚ := ⟨5, 8, fun _ _ => 1⟩

instance {R : Type} [Inhabited R] : Inhabited (T3 R) :=
  ⟨⟨0, 0, 0, fun _ _ _ => default⟩⟩

instance : Inhabited M2 := ⟨⟨0, 0, fun _ _ => false⟩⟩

/-- Extract the payload of a successful `Except` run (used only to name the
components of concrete successful runs in witnesses). -/
def exOk {α : Type} [Inhabited α] : Except PyErr α → α
  | .ok a => a
  | .error _ => default

/-- The concrete image-only scenario run of claim C4: `share_decoders=true`,
one task and one dataset, 2+2 layers, model dimension 8 on both sides. -/
def c4model : MTTransformer ℚ := wModel true true false false false [("t", ["d"])]

/-- The concrete C4 forward call. -/
def c4run : Except PyErr (List (T3 ℚ) × T3 ℚ) :=
  c4model.forward (some wImg) none wQE "t" "d" 0

/-- A concrete shared-decoder model with two registered (task, dataset)
pairs. -/
def c5model : MTTransformer ℚ :=
  wModel true true false false false [("a", ["x"]), ("b", ["y"])]

/-- A concrete model with `pass_pos_and_query=False`. -/
def c7model : MTTransformer ℚ :=
  wModel false false false false false [("a", ["x"])]

/-- A concrete model with both task-embedding toggles enabled. -/
def c2model : MTTransformer ℚ :=
  wModel true false false true true [("a", ["x"])]

/-- The concrete C2 forward call (image-only, both injections enabled). -/
def c2run : Except PyErr (List (T3 ℚ) × T3 ℚ) :=
  c2model.forward (some wImg) none wQE "a" "x" 0

/-- The components of the concrete C2 encoder-input preparation. -/
def c2encIn : T3 ℚ × M2 × Option (T3 ℚ) :=
  exOk (c2model.encoderInputs wImg.1 wImg.2.1 wImg.2.2 wQE false 0)

/-- The components of the concrete C2 image branch. -/
def c2branch : T3 ℚ × Option (T3 ℚ) × M2 × Option (T3 ℚ) × Option (T3 ℚ) :=
  exOk (c2model.imgBranch wImg.1 wImg.2.1 wImg.2.2 wQE false 0)

/-- The components of the concrete C2 forward result. -/
def c2out : List (T3 ℚ) × T3 ℚ := exOk c2run

/-! Dimension lemmas for the tensor operations (all definitional). -/

@[simp] theorem flatten2_d0 {R : Type} (x : T4 R) : x.flatten2.d0 = x.d0 := rfl

@[simp] theorem flatten2_d1 {R : Type} (x : T4 R) : x.flatten2.d1 = x.d1 := rfl

@[simp] theorem flatten2_d2 {R : Type} (x : T4 R) : x.flatten2.d2 = x.d2 * x.d3 := rfl

@[simp] theorem perm201_d0 {R : Type} (x : T3 R) : x.perm201.d0 = x.d2 := rfl

@[simp] theorem perm201_d1 {R : Type} (x : T3 R) : x.perm201.d1 = x.d0 := rfl

@[simp] theorem perm201_d2 {R : Type} (x : T3 R) : x.perm201.d2 = x.d1 := rfl

@[simp] theorem perm120_d0 {R : Type} (x : T3 R) : x.perm120.d0 = x.d1 := rfl

@[simp] theorem perm120_d1 {R : Type} (x : T3 R) : x.perm120.d1 = x.d2 := rfl

@[simp] theorem perm120_d2 {R : Type} (x : T3 R) : x.perm120.d2 = x.d0 := rfl

@[simp] theorem perm102_d0 {R : Type} (x : T3 R) : x.perm102.d0 = x.d1 := rfl

@[simp] theorem perm102_d1 {R : Type} (x : T3 R) : x.perm102.d1 = x.d0 := rfl

@[simp] theorem perm102_d2 {R : Type} (x : T3 R) : x.perm102.d2 = x.d2 := rfl

@[simp] theorem flatten1_d0 (m : M3) : m.flatten1.d0 = m.d0 := rfl

@[simp] theorem flatten1_d1 (m : M3) : m.flatten1.d1 = m.d1 * m.d2 := rfl

@[simp] theorem bcast1_d0 {R : Type} (x : T2 R) (bs : Nat) : (x.bcast1 bs).d0 = x.d0 := rfl

@[simp] theorem bcast1_d1 {R : Type} (x : T2 R) (bs : Nat) : (x.bcast1 bs).d1 = bs := rfl

@[simp] theorem bcast1_d2 {R : Type} (x : T2 R) (bs : Nat) : (x.bcast1 bs).d2 = x.d1 := rfl

@[simp] theorem zerosLike_d0 {R : Type} [Zero R] (x : T3 R) : x.zerosLike.d0 = x.d0 := rfl

@[simp] theorem zerosLike_d1 {R : Type} [Zero R] (x : T3 R) : x.zerosLike.d1 = x.d1 := rfl

@[simp] theorem zerosLike_d2 {R : Type} [Zero R] (x : T3 R) : x.zerosLike.d2 = x.d2 := rfl

@[simp] theorem addT_d0 {R : Type} [Add R] (a b : T3 R) : (a.addT b).d0 = a.d0 := rfl

@[simp] theorem addT_d1 {R : Type} [Add R] (a b : T3 R) : (a.addT b).d1 = a.d1 := rfl

@[simp] theorem addT_d2 {R : Type} [Add R] (a b : T3 R) : (a.addT b).d2 = a.d2 := rfl

@[simp] theorem smulQ_d0 {R : Type} [SMul ℚ R] (c : ℚ) (x : T3 R) : (T3.smulQ c x).d0 = x.d0 := rfl

@[simp] theorem prepend0_d0 {R : Type} (v : Nat → R) (x : T3 R) : (T3.prepend0 v x).d0 = x.d0 + 1 := rfl

@[simp] theorem prepend0_d1 {R : Type} (v : Nat → R) (x : T3 R) : (T3.prepend0 v x).d1 = x.d1 := rfl

@[simp] theorem prepend0_d2 {R : Type} (v : Nat → R) (x : T3 R) : (T3.prepend0 v x).d2 = x.d2 := rfl

@[simp] theorem dropD0_d0 {R : Type} (k : Nat) (x : T3 R) : (x.dropD0 k).d0 = x.d0 - k := rfl

@[simp] theorem dropD0_d1 {R : Type} (k : Nat) (x : T3 R) : (x.dropD0 k).d1 = x.d1 := rfl

@[simp] theorem dropD0_d2 {R : Type} (k : Nat) (x : T3 R) : (x.dropD0 k).d2 = x.d2 := rfl

@[simp] theorem dropD1_d0 {R : Type} (k : Nat) (x : T3 R) : (x.dropD1 k).d0 = x.d0 := rfl

@[simp] theorem dropD1_d1 {R : Type} (k : Nat) (x : T3 R) : (x.dropD1 k).d1 = x.d1 - k := rfl

@[simp] theorem dropD1_d2 {R : Type} (k : Nat) (x : T3 R) : (x.dropD1 k).d2 = x.d2 := rfl

@[simp] theorem catD0_d0 {R : Type} (a b : T3 R) : (a.catD0 b).d0 = a.d0 + b.d0 := rfl

@[simp] theorem catD0_d1 {R : Type} (a b : T3 R) : (a.catD0 b).d1 = a.d1 := rfl

@[simp] theorem catD0_d2 {R : Type} (a b : T3 R) : (a.catD0 b).d2 = a.d2 := rfl

@[simp] theorem prependCol_d0 (v : Bool) (m : M2) : (M2.prependCol v m).d0 = m.d0 := rfl

@[simp] theorem prependCol_d1 (v : Bool) (m : M2) : (M2.prependCol v m).d1 = m.d1 + 1 := rfl

@[simp] theorem mdropD1_d0 (k : Nat) (m : M2) : (m.dropD1 k).d0 = m.d0 := rfl

@[simp] theorem mdropD1_d1 (k : Nat) (m : M2) : (m.dropD1 k).d1 = m.d1 - k := rfl

@[simp] theorem mcatD1_d0 (a b : M2) : (a.catD1 b).d0 = a.d0 := rfl

@[simp] theorem mcatD1_d1 (a b : M2) : (a.catD1 b).d1 = a.d1 + b.d1 := rfl

@[simp] theorem neqOne_d0 (m : TI2) : m.neqOne.d0 = m.d0 := rfl

@[simp] theorem neqOne_d1 (m : TI2) : m.neqOne.d1 = m.d1 := rfl

theorem shape3_def {R : Type} (x : T3 R) : x.shape3 = [x.d0, x.d1, x.d2] := rfl

/-! Shape preservation of the encoder stack. -/

theorem encFoldl_d0 {R : Type} (mask : M2) (pos : Option (T3 R)) :
    ∀ (ls : List (EncoderLayerOp R)) (src : T3 R),
      (ls.foldl (fun o l => l.run o mask pos) src).d0 = src.d0 := by
  intro ls
  induction ls with
  | nil => intro src; rfl
  | cons l ls ih => intro src; rw [List.foldl_cons, ih, l.run_d0]

theorem encFoldl_d1 {R : Type} (mask : M2) (pos : Option (T3 R)) :
    ∀ (ls : List (EncoderLayerOp R)) (src : T3 R),
      (ls.foldl (fun o l => l.run o mask pos) src).d1 = src.d1 := by
  intro ls
  induction ls with
  | nil => intro src; rfl
  | cons l ls ih => intro src; rw [List.foldl_cons, ih, l.run_d1]

theorem encFoldl_d2 {R : Type} (mask : M2) (pos : Option (T3 R)) :
    ∀ (ls : List (EncoderLayerOp R)) (src : T3 R),
      (ls.foldl (fun o l => l.run o mask pos) src).d2 = src.d2 := by
  intro ls
  induction ls with
  | nil => intro src; rfl
  | cons l ls ih => intro src; rw [List.foldl_cons, ih, l.run_d2]

@[simp] theorem TransformerEncoder.forward_d0 {R : Type} (e : TransformerEncoder R)
    (src : T3 R) (mask : M2) (pos : Option (T3 R)) :
    (e.forward src mask pos).d0 = src.d0 := by
  unfold TransformerEncoder.forward
  cases e.norm with
  | none => exact encFoldl_d0 mask pos e.layers src
  | some n => simp only [n.f_d0]; exact encFoldl_d0 mask pos e.layers src

@[simp] theorem TransformerEncoder.forward_d1 {R : Type} (e : TransformerEncoder R)
    (src : T3 R) (mask : M2) (pos : Option (T3 R)) :
    (e.forward src mask pos).d1 = src.d1 := by
  unfold TransformerEncoder.forward
  cases e.norm with
  | none => exact encFoldl_d1 mask pos e.layers src
  | some n => simp only [n.f_d1]; exact encFoldl_d1 mask pos e.layers src

@[simp] theorem TransformerEncoder.forward_d2 {R : Type} (e : TransformerEncoder R)
    (src : T3 R) (mask : M2) (pos : Option (T3 R)) :
    (e.forward src mask pos).d2 = src.d2 := by
  unfold TransformerEncoder.forward
  cases e.norm with
  | none => exact encFoldl_d2 mask pos e.layers src
  | some n => simp only [n.f_d2]; exact encFoldl_d2 mask pos e.layers src

/-! The decoder loop: relating the fold to the raw output, and the collected
intermediate list to the layer count. -/

theorem decFoldl_fst {R : Type} (memory : T3 R) (mask : M2)
    (pos query_pos : Option (T3 R)) (norm : NormOp R) (ri : Bool) :
    ∀ (ls : List (DecoderLayerOp R)) (tgt : T3 R) (acc : List (T3 R)),
      (ls.foldl (decStep memory mask pos query_pos norm ri) (tgt, acc)).1 =
        ls.foldl (fun o l => l.run o memory mask pos query_pos) tgt := by
  intro ls
  induction ls with
  | nil => intro tgt acc; rfl
  | cons l ls ih =>
    intro tgt acc
    simp only [List.foldl_cons, decStep]
    exact ih _ _

theorem decFoldl_snd_length {R : Type} (memory : T3 R) (mask : M2)
    (pos query_pos : Option (T3 R)) (norm : NormOp R) :
    ∀ (ls : List (DecoderLayerOp R)) (tgt : T3 R) (acc : List (T3 R)),
      (ls.foldl (decStep memory mask pos query_pos norm true) (tgt, acc)).2.length =
        acc.length + ls.length := by
  intro ls
  induction ls with
  | nil => intro tgt acc; rfl
  | cons l ls ih =>
    intro tgt acc
    simp only [List.foldl_cons, decStep, if_true]
    rw [ih]
    simp only [List.length_append, List.length_cons, List.length_nil]
    omega

theorem decFoldl_snd_mem {R : Type} (memory : T3 R) (mask : M2)
    (pos query_pos : Option (T3 R)) (norm : NormOp R) (ri : Bool) :
    ∀ (ls : List (DecoderLayerOp R)) (tgt : T3 R) (acc : List (T3 R)) (u : T3 R),
      u ∈ (ls.foldl (decStep memory mask pos query_pos norm ri) (tgt, acc)).2 →
      u ∈ acc ∨ ∃ v : T3 R, v.d0 = tgt.d0 ∧ v.d1 = tgt.d1 ∧ v.d2 = tgt.d2 ∧
        u = norm.f v := by
  intro ls
  induction ls with
  | nil => intro tgt acc u h; exact .inl h
  | cons l ls ih =>
    intro tgt acc u h
    simp only [List.foldl_cons, decStep] at h
    rcases ih _ _ u h with h' | ⟨v, h0, h1, h2, rfl⟩
    · by_cases hri : ri
      · rw [if_pos hri] at h'
        rcases List.mem_append.mp h' with h'' | h''
        · exact .inl h''
        · right
          refine ⟨l.run tgt memory mask pos query_pos, l.run_d0 .., l.run_d1 ..,
            l.run_d2 .., ?_⟩
          simpa using (List.mem_singleton.mp h'').symm ▸ rfl
      · rw [if_neg hri] at h'
        exact .inl h'
    · right
      exact ⟨v, by rw [h0, l.run_d0], by rw [h1, l.run_d1], by rw [h2, l.run_d2], rfl⟩

theorem decRaw_d0 {R : Type} (memory : T3 R) (mask : M2) (pos query_pos : Option (T3 R)) :
    ∀ (ls : List (DecoderLayerOp R)) (tgt : T3 R),
      (ls.foldl (fun o l => l.run o memory mask pos query_pos) tgt).d0 = tgt.d0 := by
  intro ls
  induction ls with
  | nil => intro tgt; rfl
  | cons l ls ih => intro tgt; rw [List.foldl_cons, ih, l.run_d0]

theorem decRaw_d1 {R : Type} (memory : T3 R) (mask : M2) (pos query_pos : Option (T3 R)) :
    ∀ (ls : List (DecoderLayerOp R)) (tgt : T3 R),
      (ls.foldl (fun o l => l.run o memory mask pos query_pos) tgt).d1 = tgt.d1 := by
  intro ls
  induction ls with
  | nil => intro tgt; rfl
  | cons l ls ih => intro tgt; rw [List.foldl_cons, ih, l.run_d1]

theorem decRaw_d2 {R : Type} (memory : T3 R) (mask : M2) (pos query_pos : Option (T3 R)) :
    ∀ (ls : List (DecoderLayerOp R)) (tgt : T3 R),
      (ls.foldl (fun o l => l.run o memory mask pos query_pos) tgt).d2 = tgt.d2 := by
  intro ls
  induction ls with
  | nil => intro tgt; rfl
  | cons l ls ih => intro tgt; rw [List.foldl_cons, ih, l.run_d2]

theorem runLayers_fst {R : Type} (d : TransformerDecoder R) (tgt memory : T3 R)
    (mask : M2) (pos query_pos : Option (T3 R)) :
    (d.runLayers tgt memory mask pos query_pos).1 =
      d.rawOutput tgt memory mask pos query_pos := by
  unfold TransformerDecoder.runLayers TransformerDecoder.rawOutput
  exact decFoldl_fst memory mask pos query_pos d.norm d.return_intermediate d.layers tgt []

/-- With intermediate return enabled and a nonempty layer stack, the decoder
forward returns a stack of `layers.length` entries, the last being the final
normalization of the raw last-layer output, and every entry having the
dimensions of `tgt`. -/
theorem TransformerDecoder.forward_inr {R : Type} (d : TransformerDecoder R)
    (tgt memory : T3 R) (mask : M2) (pos query_pos : Option (T3 R))
    (hri : d.return_intermediate = true) (hne : d.layers ≠ []) :
    ∃ stack, d.forward tgt memory mask pos query_pos = .ok (.inr stack) ∧
      stack.length = d.layers.length ∧
      stack.getLast? = some (d.norm.f (d.rawOutput tgt memory mask pos query_pos)) ∧
      ∀ u ∈ stack, u.d0 = tgt.d0 ∧ u.d1 = tgt.d1 ∧ u.d2 = tgt.d2 := by
  have hlen : (d.runLayers tgt memory mask pos query_pos).2.length = d.layers.length := by
    unfold TransformerDecoder.runLayers
    rw [hri]
    simpa using decFoldl_snd_length memory mask pos query_pos d.norm d.layers tgt []
  unfold TransformerDecoder.forward
  rw [hri]
  simp only [if_true]
  cases h2 : (d.runLayers tgt memory mask pos query_pos).2 with
  | nil =>
    rw [h2] at hlen
    simp only [List.length_nil] at hlen
    exact absurd (List.length_eq_zero.mp hlen.symm) hne
  | cons a l =>
    refine ⟨(a :: l).dropLast ++ [d.norm.f (d.runLayers tgt memory mask pos query_pos).1],
      rfl, ?_, ?_, ?_⟩
    · rw [h2] at hlen
      simp only [List.length_append, List.length_dropLast, List.length_cons,
        List.length_nil] at hlen ⊢
      omega
    · rw [List.getLast?_concat, runLayers_fst]
    · intro u hu
      rcases List.mem_append.mp hu with hu' | hu'
      · have hmem : u ∈ (d.runLayers tgt memory mask pos query_pos).2 := by
          rw [h2]; exact List.dropLast_subset _ hu'
        unfold TransformerDecoder.runLayers at hmem
        rcases decFoldl_snd_mem memory mask pos query_pos d.norm d.return_intermediate
          d.layers tgt [] u hmem with h' | ⟨v, h0, h1, h2', rfl⟩
        · simp at h'
        · exact ⟨by rw [d.norm.f_d0, h0], by rw [d.norm.f_d1, h1], by rw [d.norm.f_d2, h2']⟩
      · rw [List.mem_singleton.mp hu', runLayers_fst]
        unfold TransformerDecoder.rawOutput
        exact ⟨by rw [d.norm.f_d0, decRaw_d0], by rw [d.norm.f_d1, decRaw_d1],
          by rw [d.norm.f_d2, decRaw_d2]⟩

/-- With intermediate return disabled, the decoder forward returns only the
final normalized output. -/
theorem TransformerDecoder.forward_inl {R : Type} (d : TransformerDecoder R)
    (tgt memory : T3 R) (mask : M2) (pos query_pos : Option (T3 R))
    (hri : d.return_intermediate = false) :
    d.forward tgt memory mask pos query_pos =
      .ok (.inl (d.norm.f (d.rawOutput tgt memory mask pos query_pos))) := by
  unfold TransformerDecoder.forward
  rw [hri]
  simp only [Bool.false_eq_true, if_false, runLayers_fst]

/-- Shape inversion: any stacked result of a successful decoder forward has
entries with the dimensions of `tgt`. -/
theorem TransformerDecoder.forward_ok_dims {R : Type} (d : TransformerDecoder R)
    (tgt memory : T3 R) (mask : M2) (pos query_pos : Option (T3 R)) (stack : List (T3 R))
    (h : d.forward tgt memory mask pos query_pos = .ok (.inr stack)) :
    ∀ u ∈ stack, u.d0 = tgt.d0 ∧ u.d1 = tgt.d1 ∧ u.d2 = tgt.d2 := by
  by_cases hri : d.return_intermediate
  · by_cases hne : d.layers = []
    · exfalso
      unfold TransformerDecoder.forward at h
      rw [hri] at h
      simp only [if_true] at h
      have h2 : (d.runLayers tgt memory mask pos query_pos).2 = [] := by
        unfold TransformerDecoder.runLayers
        rw [hne]
        rfl
      rw [h2] at h
      exact Except.noConfusion h
    · obtain ⟨stack', heq, _, _, hdims⟩ :=
        d.forward_inr tgt memory mask pos query_pos hri hne
      rw [heq] at h
      have : stack' = stack := by
        injection h with h'
        injection h'
      exact this ▸ hdims
  · rw [d.forward_inl tgt memory mask pos query_pos (by simpa using hri)] at h
    exfalso
    injection h with h'
    exact Sum.noConfusion h'

/-- C1: for a decoder with intermediate return enabled and `M ≥ 1` layers, a
forward call returns a stack of exactly `M` outputs whose last entry is the
final normalization applied to the raw last-layer output (never the
pre-normalization value); with intermediate return disabled only the final
normalized output is returned. -/
theorem C1_decoder_intermediate_stack {R : Type} (d : TransformerDecoder R)
    (tgt memory : T3 R) (mask : M2) (pos query_pos : Option (T3 R)) (M : Nat)
    (hM : d.layers.length = M) (hM1 : 1 ≤ M) :
    (d.return_intermediate = true →
      ∃ stack, d.forward tgt memory mask pos query_pos = .ok (.inr stack) ∧
        stack.length = M ∧
        stack.getLast? = some (d.norm.f (d.rawOutput tgt memory mask pos query_pos))) ∧
    (d.return_intermediate = false →
      d.forward tgt memory mask pos query_pos =
        .ok (.inl (d.norm.f (d.rawOutput tgt memory mask pos query_pos)))) := by
  constructor
  · intro hri
    have hne : d.layers ≠ [] := by
      intro hc
      rw [hc] at hM
      simp at hM
      omega
    obtain ⟨stack, heq, hlen, hlast, _⟩ :=
      d.forward_inr tgt memory mask pos query_pos hri hne
    exact ⟨stack, heq, hM ▸ hlen, hlast⟩
  · intro hri
    exact d.forward_inl tgt memory mask pos query_pos hri

/-- Witness for C1: a concrete one-layer decoder over `ℚ`, in both the
enabled and the disabled intermediate-return configuration. -/
theorem C1_decoder_intermediate_stack_witness :
    ((wDecoder 1 true).layers.length = 1 ∧ 1 ≤ 1 ∧
      ((wDecoder 1 true).return_intermediate = true →
        ∃ stack, (wDecoder 1 true).forward ⟨4, 1, 8, fun _ _ _ => 1⟩
            ⟨4, 1, 8, fun _ _ _ => 0⟩ ⟨1, 4, fun _ _ => false⟩ none none =
            .ok (.inr stack) ∧ stack.length = 1 ∧
          stack.getLast? = some ((wDecoder 1 true).norm.f
            ((wDecoder 1 true).rawOutput ⟨4, 1, 8, fun _ _ _ => 1⟩
              ⟨4, 1, 8, fun _ _ _ => 0⟩ ⟨1, 4, fun _ _ => false⟩ none none)))) ∧
    ((wDecoder 1 false).return_intermediate = false →
      (wDecoder 1 false).forward ⟨4, 1, 8, fun _ _ _ => 1⟩ ⟨4, 1, 8, fun _ _ _ => 0⟩
          ⟨1, 4, fun _ _ => false⟩ none none =
        .ok (.inl ((wDecoder 1 false).norm.f
          ((wDecoder 1 false).rawOutput ⟨4, 1, 8, fun _ _ _ => 1⟩
            ⟨4, 1, 8, fun _ _ _ => 0⟩ ⟨1, 4, fun _ _ => false⟩ none none)))) :=
  ⟨⟨rfl, le_refl 1,
    (C1_decoder_intermediate_stack (wDecoder 1 true) ⟨4, 1, 8, fun _ _ _ => 1⟩
      ⟨4, 1, 8, fun _ _ _ => 0⟩ ⟨1, 4, fun _ _ => false⟩ none none 1 rfl
      (le_refl 1)).1⟩,
    (C1_decoder_intermediate_stack (wDecoder 1 false) ⟨4, 1, 8, fun _ _ _ => 1⟩
      ⟨4, 1, 8, fun _ _ _ => 0⟩ ⟨1, 4, fun _ _ => false⟩ none none 1 rfl
      (le_refl 1)).2⟩

/-! Activation dispatch (claim C8). -/

/-- Counterexample for C8: the construction-time error for an unknown
activation name does not list every valid activation name — dispatching
`"tanh"` raises with the message `activation should be relu/gelu, not tanh.`,
which does not contain the valid name `glu` as a substring. -/
theorem C8_activation_message_counterexample :
    get_activation_fn "tanh" =
      .error "activation should be relu/gelu, not tanh." ∧
    ¬ ("glu".toList <:+: "activation should be relu/gelu, not tanh.".toList) :=
  ⟨rfl, by decide⟩

/-- C8 (amended): a name outside {relu, gelu, glu} fails construction with
the configuration error message `activation should be relu/gelu, not <name>.`
(which names `relu` and `gelu` but omits the also-accepted `glu`), and each
name inside the set succeeds and binds the corresponding functional. -/
theorem C8_activation_dispatch (activation : String)
    (h1 : activation ≠ "relu") (h2 : activation ≠ "gelu") (h3 : activation ≠ "glu") :
    get_activation_fn activation =
      .error ("activation should be relu/gelu, not " ++ activation ++ ".") ∧
    get_activation_fn "relu" = .ok .relu ∧
    get_activation_fn "gelu" = .ok .gelu ∧
    get_activation_fn "glu" = .ok .glu := by
  refine ⟨?_, rfl, rfl, rfl⟩
  unfold get_activation_fn
  rw [if_neg h1, if_neg h2, if_neg h3]

/-- Witness for C8 at the concrete unknown name `"tanh"`. -/
theorem C8_activation_dispatch_witness :
    ("tanh" ≠ "relu" ∧ "tanh" ≠ "gelu" ∧ "tanh" ≠ "glu") ∧
    (get_activation_fn "tanh" =
      .error ("activation should be relu/gelu, not " ++ "tanh" ++ ".") ∧
    get_activation_fn "relu" = .ok .relu ∧
    get_activation_fn "gelu" = .ok .gelu ∧
    get_activation_fn "glu" = .ok .glu) :=
  ⟨⟨by decide, by decide, by decide⟩,
   C8_activation_dispatch "tanh" (by decide) (by decide) (by decide)⟩

/-! The decoder registry (claims C5, C6). -/

theorem lookup_map_const {R : Type} (dec : TransformerDecoder R) :
    ∀ (ds : List String) (d : String) (found : TransformerDecoder R),
      (ds.map fun s => (s, dec)).lookup d = some found → found = dec := by
  intro ds
  induction ds with
  | nil => intro d found h; exact Option.noConfusion h
  | cons a ds ih =>
    intro d found h
    by_cases hda : d == a
    · simp only [List.map_cons, List.lookup, hda] at h
      exact (Option.some.inj h).symm
    · simp only [List.map_cons, List.lookup, Bool.not_eq_true] at h
      rw [Bool.not_eq_true] at hda
      rw [hda] at h
      exact ih d found h

/-- With `share_decoders=true` every successful registry lookup returns the
canonical decoder. -/
theorem lookupDecoder_share {R : Type} (m : MTTransformer R)
    (hshare : m.share_decoders = true) (t d : String) (found : TransformerDecoder R)
    (h : m.lookupDecoder t d = some found) : found = m.decoder := by
  unfold MTTransformer.lookupDecoder MTTransformer.decoders buildDecoders at h
  rw [hshare] at h
  simp only [if_true] at h
  generalize m.args.num_queries = nq at h
  induction nq with
  | nil => simp [List.lookup] at h
  | cons p nq ih =>
    by_cases hpt : t == p.1
    · simp only [List.map_cons, List.lookup, hpt] at h
      exact lookup_map_const m.decoder p.2 d found h
    · rw [Bool.not_eq_true] at hpt
      simp only [List.map_cons, List.lookup, hpt] at h
      exact ih h

/-- C5: with `share_decoders=true`, any two registered (task, dataset) pairs
resolve to the same canonical decoder, and a forward call with identical
inputs returns identical outputs regardless of which registered pair is
requested. -/
theorem C5_share_decoders_identical {R : Type} [Zero R] [Add R] [SMul ℚ R]
    (m : MTTransformer R) (hshare : m.share_decoders = true)
    (img : Option (T4 R × M3 × T4 R)) (text : Option (T3 R × TI2 × T2 R))
    (query_embed : T2 R) (ta da tb db : String) (task_idx : Nat)
    (ea eb : TransformerDecoder R)
    (ha : m.lookupDecoder ta da = some ea) (hb : m.lookupDecoder tb db = some eb) :
    ea = m.decoder ∧ eb = m.decoder ∧
    m.forward img text query_embed ta da task_idx =
      m.forward img text query_embed tb db task_idx := by
  have hea := lookupDecoder_share m hshare ta da ea ha
  have heb := lookupDecoder_share m hshare tb db eb hb
  refine ⟨hea, heb, ?_⟩
  unfold MTTransformer.forward
  cases m.gather img text query_embed task_idx with
  | error e => rfl
  | ok st =>
    show m.postGather st ta da = m.postGather st tb db
    unfold MTTransformer.postGather
    rw [ha, hb, hea, heb]

/-- Looking a key up in a key-determined pair list built by `map`. -/
theorem lookup_map_pair {β : Type} (g : String → β) :
    ∀ (ds : List String) (d : String), d ∈ ds →
      (ds.map fun s => (s, g s)).lookup d = some (g d) := by
  intro ds
  induction ds with
  | nil => intro d h; exact absurd h (List.not_mem_nil d)
  | cons a ds ih =>
    intro d h
    by_cases hda : d = a
    · subst hda
      simp [List.lookup]
    · have : d ∈ ds := by
        rcases List.mem_cons.mp h with h' | h'
        · exact absurd h' hda
        · exact h'
      have hbeq : (d == a) = false := beq_eq_false_iff_ne.mpr hda
      simp only [List.map_cons, List.lookup, hbeq]
      exact ih d this

/-- Every pair registered in `num_queries` resolves to a decoder by exact
match. -/
theorem lookupDecoder_registered {R : Type} (m : MTTransformer R)
    (t d : String) (dss : List String)
    (ht : m.args.num_queries.lookup t = some dss) (hd : d ∈ dss) :
    ∃ dec, m.lookupDecoder t d = some dec := by
  unfold MTTransformer.lookupDecoder MTTransformer.decoders buildDecoders
  generalize hnq : m.args.num_queries = nq
  rw [hnq] at ht
  clear hnq
  induction nq with
  | nil => exact Option.noConfusion ht
  | cons p nq ih =>
    by_cases hpt : t == p.1
    · simp only [List.lookup, hpt] at ht
      have hdss : p.2 = dss := Option.some.inj ht
      subst hdss
      simp only [List.map_cons, List.lookup, hpt]
      exact ⟨_, lookup_map_pair _ p.2 d hd⟩
    · rw [Bool.not_eq_true] at hpt
      simp only [List.lookup, hpt] at ht
      simp only [List.map_cons, List.lookup, hpt]
      exact ih ht

/-- Counterexample for C6: a forward call requesting an unregistered
(task, dataset) pair does not always fail with the lookup error — with
`pass_pos_and_query=False` and a text input, the `NotImplementedError` of
line 275 is raised before the registry lookup of line 277 ever runs (the
call still fails; no fallback decoder is ever selected). -/
theorem C6_lookup_error_counterexample :
    c7model.lookupDecoder "zz" "ww" = none ∧
    c7model.forward (some wImg) (some wText) wQE "zz" "ww" 0 =
      .error .notImplemented ∧
    PyErr.notImplemented ≠ PyErr.keyError :=
  ⟨rfl, rfl, by decide⟩

/-- C6 (amended): requesting an unregistered (task, dataset) pair never succeeds and
never selects a fallback decoder — whenever the input preprocessing
completes, the failure is precisely the lookup `KeyError`, and in every case
the call returns an error; a registered pair resolves by exact match. -/
theorem C6_unregistered_pair_fails {R : Type} [Zero R] [Add R] [SMul ℚ R]
    (m : MTTransformer R) (img : Option (T4 R × M3 × T4 R))
    (text : Option (T3 R × TI2 × T2 R)) (query_embed : T2 R)
    (tt dn : String) (task_idx : Nat)
    (hmiss : m.lookupDecoder tt dn = none) :
    (∃ e, m.forward img text query_embed tt dn task_idx = .error e) ∧
    (∀ st, m.gather img text query_embed task_idx = .ok st →
      m.forward img text query_embed tt dn task_idx = .error .keyError) ∧
    (∀ (t d : String) (dss : List String),
      m.args.num_queries.lookup t = some dss → d ∈ dss →
      ∃ dec, m.lookupDecoder t d = some dec) := by
  refine ⟨?_, ?_, fun t d dss ht hd => lookupDecoder_registered m t d dss ht hd⟩
  · unfold MTTransformer.forward
    cases m.gather img text query_embed task_idx with
    | error e => exact ⟨e, rfl⟩
    | ok st =>
      show ∃ e, m.postGather st tt dn = .error e
      unfold MTTransformer.postGather
      rw [hmiss]
      exact ⟨.keyError, rfl⟩
  · intro st hst
    unfold MTTransformer.forward
    rw [hst]
    show m.postGather st tt dn = .error .keyError
    unfold MTTransformer.postGather
    rw [hmiss]

/-! The text branch with `pass_pos_and_query=False` (claims C7, C10). -/

/-- With `pass_pos_and_query=False` the text branch raises
`NotImplementedError` whatever state the image branch accumulated. -/
theorem textBranch_some_notImplemented {R : Type} [Zero R]
    (m : MTTransformer R) (st : GatherState R) (tsrc : T3 R) (tmask : TI2)
    (tpos : T2 R) (query_embed : T2 R) (task_idx : Nat)
    (hppq : m.pass_pos_and_query = false) :
    m.textBranch st (some (tsrc, tmask, tpos)) query_embed task_idx =
      .error .notImplemented := by
  unfold MTTransformer.textBranch
  rw [hppq]
  simp

/-- C7: with `pass_pos_and_query=False` and text-only input (text present,
image absent), the forward call raises `NotImplementedError`. -/
theorem C7_text_only_not_implemented {R : Type} [Zero R] [Add R] [SMul ℚ R]
    (m : MTTransformer R) (tx : T3 R × TI2 × T2 R) (query_embed : T2 R)
    (tt dn : String) (task_idx : Nat)
    (hppq : m.pass_pos_and_query = false) :
    m.forward none (some tx) query_embed tt dn task_idx = .error .notImplemented := by
  obtain ⟨tsrc, tmask, tpos⟩ := tx
  unfold MTTransformer.forward MTTransformer.gather
  rw [textBranch_some_notImplemented m _ tsrc tmask tpos query_embed task_idx hppq]

/-- The image branch always completes when text is also present (the target
preparation block is skipped, so the positional embedding is never `None` on
this path). -/
theorem imgBranch_ok_textPresent {R : Type} [Zero R] [Add R] [SMul ℚ R]
    (m : MTTransformer R) (img_src : T4 R) (img_mask : M3) (img_pos : T4 R)
    (query_embed : T2 R) (task_idx : Nat) :
    ∃ mem p msk, m.imgBranch img_src img_mask img_pos query_embed true task_idx =
      .ok (mem, some p, msk, none, none) := by
  unfold MTTransformer.imgBranch MTTransformer.encoderInputs MTTransformer.imgTargetPrep
    MTTransformer.prefix_task_embedding_to_encoder_inputs MTTransformer.mem_out_begin_idx
  by_cases hue : m.args.use_task_embedding_in_encoder <;>
    by_cases hdd : m.d_model_enc = m.d_model_dec <;>
      simp [hue, hdd]

/-- C10: with `pass_pos_and_query=False`, the `NotImplementedError` is raised
whenever a text input is present — in the combined image-plus-text case just
as in the text-only case — so no decoder output is ever produced. -/
theorem C10_text_with_pass_pos_false {R : Type} [Zero R] [Add R] [SMul ℚ R]
    (m : MTTransformer R) (img : Option (T4 R × M3 × T4 R))
    (tx : T3 R × TI2 × T2 R) (query_embed : T2 R) (tt dn : String) (task_idx : Nat)
    (hppq : m.pass_pos_and_query = false) :
    m.forward img (some tx) query_embed tt dn task_idx = .error .notImplemented := by
  obtain ⟨tsrc, tmask, tpos⟩ := tx
  cases img with
  | none =>
    unfold MTTransformer.forward MTTransformer.gather
    rw [textBranch_some_notImplemented m _ tsrc tmask tpos query_embed task_idx hppq]
  | some i =>
    obtain ⟨isrc, imask, ipos⟩ := i
    obtain ⟨mem, p, msk, hib⟩ :=
      imgBranch_ok_textPresent m isrc imask ipos query_embed task_idx
    have hg : m.gather (some (isrc, imask, ipos)) (some (tsrc, tmask, tpos))
        query_embed task_idx = .error .notImplemented := by
      have h1 : m.gather (some (isrc, imask, ipos)) (some (tsrc, tmask, tpos))
          query_embed task_idx =
          match m.imgBranch isrc imask ipos query_embed true task_idx with
          | .error e => .error e
          | .ok (memory, p', msk', tgt, qe) =>
            m.textBranch ⟨[memory], [p'], [msk'], tgt, qe⟩
              (some (tsrc, tmask, tpos)) query_embed task_idx := rfl
      rw [h1, hib]
      exact textBranch_some_notImplemented m _ tsrc tmask tpos query_embed task_idx hppq
    unfold MTTransformer.forward
    rw [hg]

/-- Computation of the forward call with both modality inputs absent: the
gathered state is empty, so the call dies at the registry lookup or at the
first (empty) concatenation. -/
theorem forward_none_none {R : Type} [Zero R] [Add R] [SMul ℚ R]
    (m : MTTransformer R) (query_embed : T2 R) (tt dn : String) (task_idx : Nat) :
    m.forward none none query_embed tt dn task_idx =
      match m.lookupDecoder tt dn with
      | none => .error .keyError
      | some _ => .error .catEmpty := by
  unfold MTTransformer.forward
  have hg : m.gather none none query_embed task_idx = .ok ⟨[], [], [], none, none⟩ := rfl
  rw [hg]
  show m.postGather ⟨[], [], [], none, none⟩ tt dn = _
  unfold MTTransformer.postGather
  cases m.lookupDecoder tt dn with
  | none => rfl
  | some dec => rfl

/-- C9: with both the image and the text input absent, the forward call
always fails — with the lookup `KeyError` when the requested pair is
unregistered and with the `torch.cat`-on-an-empty-list error otherwise — and
never returns a result. -/
theorem C9_no_inputs_error {R : Type} [Zero R] [Add R] [SMul ℚ R]
    (m : MTTransformer R) (query_embed : T2 R) (tt dn : String) (task_idx : Nat) :
    ∃ e, m.forward none none query_embed tt dn task_idx = .error e ∧
      (e = PyErr.keyError ∨ e = PyErr.catEmpty) := by
  rw [forward_none_none]
  cases h : m.lookupDecoder tt dn with
  | none => exact ⟨.keyError, rfl, .inl rfl⟩
  | some dec => exact ⟨.catEmpty, rfl, .inr rfl⟩

/-! Dimensions through the task-embedding prefixing and the image branch
(claims C2, C3, C4). -/

theorem prefixQE_d0 {R : Type} (m : MTTransformer R) (q : T3 R) (task_idx : Nat) :
    (m.prefix_task_embedding_to_query_embed q task_idx).d0 =
      q.d0 + (if m.args.use_task_embedding_in_decoder then 1 else 0) := by
  unfold MTTransformer.prefix_task_embedding_to_query_embed
  by_cases h : m.args.use_task_embedding_in_decoder = true <;> simp [h]

theorem prefixQE_d1 {R : Type} (m : MTTransformer R) (q : T3 R) (task_idx : Nat) :
    (m.prefix_task_embedding_to_query_embed q task_idx).d1 = q.d1 := by
  unfold MTTransformer.prefix_task_embedding_to_query_embed
  by_cases h : m.args.use_task_embedding_in_decoder = true <;> simp [h]

theorem prefixQE_d2 {R : Type} (m : MTTransformer R) (q : T3 R) (task_idx : Nat) :
    (m.prefix_task_embedding_to_query_embed q task_idx).d2 = q.d2 := by
  unfold MTTransformer.prefix_task_embedding_to_query_embed
  by_cases h : m.args.use_task_embedding_in_decoder = true <;> simp [h]

/-- Inversion of a successful image branch: the appended memory has the
flattened image sequence length (the injected encoder prefix, when present,
has been stripped again), its batch and (dimension-preserving case) channel
sizes match the input, the appended mask equals the flattened input mask
pointwise, and any produced `tgt`/`query_embed` has the broadcast query
dimensions plus the decoder-side injection offset. -/
theorem imgBranch_ok_inv {R : Type} [Zero R] [Add R] [SMul ℚ R]
    (m : MTTransformer R) (img_src : T4 R) (img_mask : M3) (img_pos : T4 R)
    (query_embed : T2 R) (tp : Bool) (task_idx : Nat) (mem : T3 R)
    (p tgt qe : Option (T3 R)) (msk : M2)
    (h : m.imgBranch img_src img_mask img_pos query_embed tp task_idx =
      .ok (mem, p, msk, tgt, qe)) :
    mem.d0 = img_src.d2 * img_src.d3 ∧
    mem.d1 = img_src.d0 ∧
    (m.d_model_enc = m.d_model_dec → mem.d2 = img_src.d1) ∧
    msk.d0 = img_mask.d0 ∧
    msk.d1 = img_mask.d1 * img_mask.d2 ∧
    (∀ b s, msk.at2 b s = img_mask.flatten1.at2 b s) ∧
    (∀ t, tgt = some t →
      t.d0 = query_embed.d0 + (if m.args.use_task_embedding_in_decoder then 1 else 0) ∧
      t.d1 = img_src.d0 ∧ t.d2 = query_embed.d1) ∧
    (∀ q, qe = some q →
      q.d0 = query_embed.d0 + (if m.args.use_task_embedding_in_decoder then 1 else 0) ∧
      q.d1 = img_src.d0 ∧ q.d2 = query_embed.d1) := by
  unfold MTTransformer.imgBranch MTTransformer.encoderInputs MTTransformer.imgTargetPrep
    MTTransformer.prefix_task_embedding_to_encoder_inputs
    MTTransformer.prefix_task_embedding_to_query_embed MTTransformer.mem_out_begin_idx at h
  by_cases hue : m.args.use_task_embedding_in_encoder = true <;>
  by_cases hud : m.args.use_task_embedding_in_decoder = true <;>
  by_cases htp : tp = true <;>
  by_cases hppq : m.pass_pos_and_query = true <;>
  by_cases hres : m.args.residual_in_encoder = true <;>
  by_cases hdd : m.d_model_enc = m.d_model_dec <;>
  simp [hue, hud, htp, hppq, hres, hdd] at h
  all_goals obtain ⟨rfl, rfl, rfl, rfl, rfl⟩ := h
  all_goals
    refine ⟨?_, ?_, ?_, ?_, ?_, ?_, ?_, ?_⟩ <;>
    simp [hud, hdd, M2.dropD1, M2.prependCol, M3.flatten1,
      m.enc2dec_linear.run_d0, m.enc2dec_linear.run_d1, m.enc2dec_linear.run_d2,
      Nat.add_sub_cancel, forall_eq']

/-- Inversion of a successful encoder-input preparation: the source the
encoder is run on has the flattened image sequence length plus one exactly
when encoder-side task-embedding injection is enabled (and likewise for the
mask width). -/
theorem encoderInputs_ok_dims {R : Type} [Zero R] [Add R] [SMul ℚ R]
    (m : MTTransformer R) (img_src : T4 R) (img_mask : M3) (img_pos : T4 R)
    (query_embed : T2 R) (tp : Bool) (task_idx : Nat) (s2 : T3 R) (mk2 : M2)
    (p2 : Option (T3 R))
    (h : m.encoderInputs img_src img_mask img_pos query_embed tp task_idx =
      .ok (s2, mk2, p2)) :
    s2.d0 = img_src.d2 * img_src.d3 +
      (if m.args.use_task_embedding_in_encoder then 1 else 0) ∧
    s2.d1 = img_src.d0 ∧ s2.d2 = img_src.d1 ∧
    mk2.d0 = img_mask.d0 ∧
    mk2.d1 = img_mask.d1 * img_mask.d2 +
      (if m.args.use_task_embedding_in_encoder then 1 else 0) := by
  unfold MTTransformer.encoderInputs MTTransformer.imgTargetPrep
    MTTransformer.prefix_task_embedding_to_encoder_inputs
    MTTransformer.prefix_task_embedding_to_query_embed at h
  by_cases hue : m.args.use_task_embedding_in_encoder = true <;>
  by_cases htp : tp = true <;>
  by_cases hppq : m.pass_pos_and_query = true <;>
  simp [hue, htp, hppq] at h
  all_goals obtain ⟨rfl, rfl, rfl⟩ := h
  all_goals refine ⟨?_, ?_, ?_, ?_, ?_⟩ <;> simp [hue]

/-- Computation of the text branch when text is present and
`pass_pos_and_query` holds: append the permuted text source, the broadcast
positional embedding and the derived boolean mask, and set the target and
query embedding. -/
theorem textBranch_some_ok {R : Type} [Zero R] (m : MTTransformer R)
    (st : GatherState R) (text_src : T3 R) (text_mask : TI2) (text_pos : T2 R)
    (query_embed : T2 R) (task_idx : Nat) (hppq : m.pass_pos_and_query = true) :
    m.textBranch st (some (text_src, text_mask, text_pos)) query_embed task_idx =
      .ok ⟨st.memories ++ [text_src.perm102],
           st.pos_embeds ++ [some (text_pos.bcast1 text_src.d0)],
           st.masks ++ [text_mask.neqOne],
           some (T3.zerosLike (m.prefix_task_embedding_to_query_embed
             (query_embed.bcast1 text_src.d0) task_idx)),
           some (m.prefix_task_embedding_to_query_embed
             (query_embed.bcast1 text_src.d0) task_idx)⟩ := by
  unfold MTTransformer.textBranch
  rw [hppq]
  simp

/-- The image branch on an image-only call with `pass_pos_and_query` enabled:
it completes, the returned positional embedding is present, and the target is
the zero tensor shaped like the (possibly prefix-extended) broadcast query
embedding. -/
theorem imgBranch_ok_imgOnly {R : Type} [Zero R] [Add R] [SMul ℚ R]
    (m : MTTransformer R) (img_src : T4 R) (img_mask : M3) (img_pos : T4 R)
    (query_embed : T2 R) (task_idx : Nat)
    (hppq : m.pass_pos_and_query = true) :
    ∃ mem p msk,
      m.imgBranch img_src img_mask img_pos query_embed false task_idx =
        .ok (mem, some p, msk,
          some (T3.zerosLike (m.prefix_task_embedding_to_query_embed
            (query_embed.bcast1 img_src.d0) task_idx)),
          some (m.prefix_task_embedding_to_query_embed
            (query_embed.bcast1 img_src.d0) task_idx)) := by
  unfold MTTransformer.imgBranch MTTransformer.encoderInputs MTTransformer.imgTargetPrep
    MTTransformer.prefix_task_embedding_to_encoder_inputs MTTransformer.mem_out_begin_idx
  by_cases hue : m.args.use_task_embedding_in_encoder = true <;>
  by_cases hdd : m.d_model_enc = m.d_model_dec <;>
  simp [hue, hdd, hppq]

/-- Any target produced by a successful gather has the query-set length plus
the decoder-side injection offset as its sequence dimension. -/
theorem gather_ok_tgt {R : Type} [Zero R] [Add R] [SMul ℚ R]
    (m : MTTransformer R) (img : Option (T4 R × M3 × T4 R))
    (text : Option (T3 R × TI2 × T2 R)) (query_embed : T2 R) (task_idx : Nat)
    (st : GatherState R)
    (h : m.gather img text query_embed task_idx = .ok st) :
    ∀ t, st.tgt = some t →
      t.d0 = query_embed.d0 +
        (if m.args.use_task_embedding_in_decoder then 1 else 0) := by
  intro t ht
  cases img with
  | none =>
    cases text with
    | none =>
      replace h : (Except.ok ⟨[], [], [], none, none⟩ :
          Except PyErr (GatherState R)) = .ok st := h
      obtain rfl := Except.ok.inj h
      exact Option.noConfusion ht
    | some tx =>
      obtain ⟨ts, tm, tp2⟩ := tx
      replace h : m.textBranch ⟨[], [], [], none, none⟩ (some (ts, tm, tp2))
          query_embed task_idx = .ok st := h
      by_cases hppq : m.pass_pos_and_query = true
      · rw [textBranch_some_ok m _ ts tm tp2 query_embed task_idx hppq] at h
        obtain rfl := Except.ok.inj h
        obtain rfl := Option.some.inj ht
        simp [prefixQE_d0]
      · rw [textBranch_some_notImplemented m _ ts tm tp2 query_embed task_idx
          (by simpa using hppq)] at h
        exact Except.noConfusion h
  | some ix =>
    obtain ⟨isrc, imask, ipos⟩ := ix
    unfold MTTransformer.gather at h
    simp only [] at h
    cases hib : m.imgBranch isrc imask ipos query_embed text.isSome task_idx with
    | error e => rw [hib] at h; simp at h
    | ok out =>
      rw [hib] at h
      obtain ⟨mem, p', msk', tgt0, qe0'⟩ := out
      replace h : m.textBranch ⟨[mem], [p'], [msk'], tgt0, qe0'⟩ text
          query_embed task_idx = .ok st := h
      cases text with
      | none =>
        replace h : (Except.ok ⟨[mem], [p'], [msk'], tgt0, qe0'⟩ :
            Except PyErr (GatherState R)) = .ok st := h
        obtain rfl := Except.ok.inj h
        obtain ⟨-, -, -, -, -, -, htgt, -⟩ :=
          imgBranch_ok_inv m isrc imask ipos query_embed _ task_idx mem p' tgt0
            qe0' msk' hib
        exact (htgt t ht).1
      | some tx =>
        obtain ⟨ts, tm, tp2⟩ := tx
        by_cases hppq : m.pass_pos_and_query = true
        · rw [textBranch_some_ok m _ ts tm tp2 query_embed task_idx hppq] at h
          obtain rfl := Except.ok.inj h
          obtain rfl := Option.some.inj ht
          simp [prefixQE_d0]
        · rw [textBranch_some_notImplemented m _ ts tm tp2 query_embed task_idx
            (by simpa using hppq)] at h
          exact Except.noConfusion h

/-- Inversion of the decoding tail (lines 277-294): a successful result comes
from a registry hit, successful concatenations, an assigned target, and a
stacked decoder output, transposed and prefix-stripped. -/
theorem postGather_ok_inv {R : Type} (m : MTTransformer R) (st : GatherState R)
    (tt dn : String) (hs : List (T3 R)) (memOut : T3 R)
    (h : m.postGather st tt dn = .ok (hs, memOut)) :
    ∃ dec memories stack tgt,
      m.lookupDecoder tt dn = some dec ∧
      catT3 st.memories = .ok memories ∧
      st.tgt = some tgt ∧
      (∃ masks pos_embeds, catM2 st.masks = .ok masks ∧
        catPos st.pos_embeds = .ok pos_embeds ∧
        dec.forward tgt memories masks (some pos_embeds) st.query_embed =
          .ok (.inr stack)) ∧
      hs = stack.map (fun u => (u.perm102).dropD1 m.hs_out_begin_idx) ∧
      memOut = memories.perm120 := by
  unfold MTTransformer.postGather at h
  cases hlk : m.lookupDecoder tt dn with
  | none => rw [hlk] at h; simp at h
  | some dec =>
    rw [hlk] at h
    simp only [] at h
    cases hct : catT3 st.memories with
    | error e => rw [hct] at h; simp at h
    | ok memories =>
      rw [hct] at h
      simp only [] at h
      cases hcm : catM2 st.masks with
      | error e => rw [hcm] at h; simp at h
      | ok masks =>
        rw [hcm] at h
        simp only [] at h
        cases hcp : catPos st.pos_embeds with
        | error e => rw [hcp] at h; simp at h
        | ok pos_embeds =>
          rw [hcp] at h
          simp only [] at h
          cases htgt : st.tgt with
          | none => rw [htgt] at h; simp at h
          | some tgt =>
            rw [htgt] at h
            simp only [] at h
            cases hdf : dec.forward tgt memories masks (some pos_embeds)
                st.query_embed with
            | error e => rw [hdf] at h; simp at h
            | ok r =>
              rw [hdf] at h
              cases r with
              | inl v => simp at h
              | inr stack =>
                simp only [Except.ok.injEq, Prod.mk.injEq] at h
                obtain ⟨h1, h2⟩ := h
                exact ⟨dec, memories, stack, tgt, rfl, rfl, rfl,
                  ⟨masks, pos_embeds, rfl, rfl, hdf⟩, h1.symm, h2.symm⟩

/-- Inversion of a successful forward call into its gather and decoding
stages. -/
theorem forward_ok_inv {R : Type} [Zero R] [Add R] [SMul ℚ R]
    (m : MTTransformer R) (img : Option (T4 R × M3 × T4 R))
    (text : Option (T3 R × TI2 × T2 R)) (query_embed : T2 R)
    (tt dn : String) (task_idx : Nat) (hs : List (T3 R)) (memOut : T3 R)
    (h : m.forward img text query_embed tt dn task_idx = .ok (hs, memOut)) :
    ∃ st, m.gather img text query_embed task_idx = .ok st ∧
      m.postGather st tt dn = .ok (hs, memOut) := by
  unfold MTTransformer.forward at h
  cases hg : m.gather img text query_embed task_idx with
  | error e => rw [hg] at h; simp at h
  | ok st =>
    rw [hg] at h
    simp only [] at h
    exact ⟨st, rfl, h⟩

/-- C2: the injected task-embedding prefix position is stripped before
results reach the caller.  With encoder-side injection enabled, the source
actually fed to the encoder has the flattened input length plus one, while
the image memory appended to the fused sequence has the original flattened
length again; with decoder-side injection enabled, every hidden-state layer
of a successful forward call has exactly the original number of queries. -/
theorem C2_injected_prefix_stripped {R : Type} [Zero R] [Add R] [SMul ℚ R]
    (m : MTTransformer R) (img_src : T4 R) (img_mask : M3) (img_pos : T4 R)
    (tp : Bool) (img : Option (T4 R × M3 × T4 R))
    (text : Option (T3 R × TI2 × T2 R)) (query_embed : T2 R)
    (tt dn : String) (task_idx : Nat) :
    (m.args.use_task_embedding_in_encoder = true →
      (∀ s2 mk2 p2,
        m.encoderInputs img_src img_mask img_pos query_embed tp task_idx =
          .ok (s2, mk2, p2) →
        s2.d0 = img_src.d2 * img_src.d3 + 1) ∧
      (∀ mem p msk tgt qe,
        m.imgBranch img_src img_mask img_pos query_embed tp task_idx =
          .ok (mem, p, msk, tgt, qe) →
        mem.d0 = img_src.d2 * img_src.d3)) ∧
    (m.args.use_task_embedding_in_decoder = true →
      ∀ hs memOut, m.forward img text query_embed tt dn task_idx = .ok (hs, memOut) →
        ∀ t ∈ hs, t.d1 = query_embed.d0) := by
  constructor
  · intro hue
    constructor
    · intro s2 mk2 p2 h
      obtain ⟨h0, -, -, -, -⟩ :=
        encoderInputs_ok_dims m img_src img_mask img_pos query_embed tp task_idx
          s2 mk2 p2 h
      rw [h0, hue, if_pos rfl]
    · intro mem p msk tgt qe h
      exact (imgBranch_ok_inv m img_src img_mask img_pos query_embed tp task_idx
        mem p tgt qe msk h).1
  · intro hud hs memOut h t ht
    obtain ⟨st, hg, hpost⟩ :=
      forward_ok_inv m img text query_embed tt dn task_idx hs memOut h
    obtain ⟨dec, memories, stack, tgt, -, -, htgt, ⟨masks, pos_embeds, -, -, hdf⟩,
      hhs, -⟩ := postGather_ok_inv m st tt dn hs memOut hpost
    have htgt0 : tgt.d0 = query_embed.d0 + 1 := by
      have := gather_ok_tgt m img text query_embed task_idx st hg tgt htgt
      rw [this, hud, if_pos rfl]
    rw [hhs] at ht
    obtain ⟨u, hu, rfl⟩ := List.mem_map.mp ht
    have hdims := TransformerDecoder.forward_ok_dims dec tgt memories masks
      (some pos_embeds) st.query_embed stack hdf u hu
    have hidx : m.hs_out_begin_idx = 1 := by
      unfold MTTransformer.hs_out_begin_idx
      rw [hud, if_pos rfl]
    simp only [dropD1_d1, perm102_d1, hidx, hdims.1, htgt0, Nat.add_sub_cancel]

/-- Witness for C5: two concrete registered pairs of a shared-decoder model
resolve to the same canonical decoder and yield equal forward results. -/
theorem C5_share_decoders_identical_witness :
    (c5model.share_decoders = true ∧
     c5model.lookupDecoder "a" "x" = some (wDecoder 2 true) ∧
     c5model.lookupDecoder "b" "y" = some (wDecoder 2 true)) ∧
    (wDecoder 2 true = c5model.decoder ∧ wDecoder 2 true = c5model.decoder ∧
     c5model.forward (some wImg) none wQE "a" "x" 0 =
       c5model.forward (some wImg) none wQE "b" "y" 0) :=
  ⟨⟨rfl, rfl, rfl⟩,
   C5_share_decoders_identical c5model rfl (some wImg) none wQE "a" "x" "b" "y" 0
     (wDecoder 2 true) (wDecoder 2 true) rfl rfl⟩

/-- Witness for C6: a concrete unregistered pair fails, and the concrete
registered pair resolves. -/
theorem C6_unregistered_pair_fails_witness :
    c5model.lookupDecoder "zz" "ww" = none ∧
    ((∃ e, c5model.forward (some wImg) none wQE "zz" "ww" 0 = .error e) ∧
     (∀ st, c5model.gather (some wImg) none wQE 0 = .ok st →
       c5model.forward (some wImg) none wQE "zz" "ww" 0 = .error .keyError) ∧
     (∀ (t d : String) (dss : List String),
       c5model.args.num_queries.lookup t = some dss → d ∈ dss →
       ∃ dec, c5model.lookupDecoder t d = some dec)) :=
  ⟨rfl, C6_unregistered_pair_fails c5model (some wImg) none wQE "zz" "ww" 0 rfl⟩

/-- Witness for C7: a concrete text-only call with `pass_pos_and_query=False`
raises `NotImplementedError`. -/
theorem C7_text_only_not_implemented_witness :
    c7model.pass_pos_and_query = false ∧
    c7model.forward none (some wText) wQE "a" "x" 0 = .error .notImplemented :=
  ⟨rfl, C7_text_only_not_implemented c7model wText wQE "a" "x" 0 rfl⟩

/-- Witness for C10: a concrete combined image-plus-text call with
`pass_pos_and_query=False` raises `NotImplementedError`. -/
theorem C10_text_with_pass_pos_false_witness :
    c7model.pass_pos_and_query = false ∧
    c7model.forward (some wImg) (some wText) wQE "a" "x" 0 = .error .notImplemented :=
  ⟨rfl, C10_text_with_pass_pos_false c7model (some wImg) wText wQE "a" "x" 0 rfl⟩

/-- Witness for C2: both injections enabled on a concrete image-only run —
the internal encoder input has length 2·2+1, the image memory has length 2·2,
and each of the two returned hidden-state layers has exactly the 5 original
queries. -/
theorem C2_injected_prefix_stripped_witness :
    c2model.args.use_task_embedding_in_encoder = true ∧
    c2model.args.use_task_embedding_in_decoder = true ∧
    c2encIn.1.d0 = 2 * 2 + 1 ∧
    c2branch.1.d0 = 2 * 2 ∧
    (∀ t ∈ c2out.1, t.d1 = 5) :=
  ⟨rfl, rfl,
   ((C2_injected_prefix_stripped c2model wImg.1 wImg.2.1 wImg.2.2 false (some wImg)
      none wQE "a" "x" 0).1 rfl).1 c2encIn.1 c2encIn.2.1 c2encIn.2.2 rfl,
   ((C2_injected_prefix_stripped c2model wImg.1 wImg.2.1 wImg.2.2 false (some wImg)
      none wQE "a" "x" 0).1 rfl).2 c2branch.1 c2branch.2.1 c2branch.2.2.1
      c2branch.2.2.2.1 c2branch.2.2.2.2 rfl,
   (C2_injected_prefix_stripped c2model wImg.1 wImg.2.1 wImg.2.2 false (some wImg)
      none wQE "a" "x" 0).2 rfl c2out.1 c2out.2 rfl⟩

/-- C3: with both modalities present, the gathered memory list is the image
memory followed by the permuted text source; the fused memory is their
sequence-axis concatenation — image stream first — of length
(flattened image length) + (text sequence length), with the text entries
appearing at the image-length offset; and the fused mask keeps every padding
position of either source stream padded at the same offset. -/
theorem C3_modality_fusion {R : Type} [Zero R] [Add R] [SMul ℚ R]
    (m : MTTransformer R) (img_src : T4 R) (img_mask : M3) (img_pos : T4 R)
    (text_src : T3 R) (text_mask : TI2) (text_pos : T2 R)
    (query_embed : T2 R) (task_idx : Nat)
    (hppq : m.pass_pos_and_query = true)
    (hm1 : img_mask.d1 = img_src.d2) (hm2 : img_mask.d2 = img_src.d3) :
    ∃ st imgMem imgMsk,
      m.gather (some (img_src, img_mask, img_pos))
        (some (text_src, text_mask, text_pos)) query_embed task_idx = .ok st ∧
      st.memories = [imgMem, text_src.perm102] ∧
      st.masks = [imgMsk, text_mask.neqOne] ∧
      catT3 st.memories = .ok (imgMem.catD0 text_src.perm102) ∧
      imgMem.d0 = img_src.d2 * img_src.d3 ∧
      (imgMem.catD0 text_src.perm102).d0 =
        img_src.d2 * img_src.d3 + text_src.d1 ∧
      (∀ s b c, s < imgMem.d0 →
        (imgMem.catD0 text_src.perm102).at3 s b c = imgMem.at3 s b c) ∧
      (∀ s b c, (imgMem.catD0 text_src.perm102).at3 (imgMem.d0 + s) b c =
        text_src.at3 b s c) ∧
      catM2 st.masks = .ok (imgMsk.catD1 text_mask.neqOne) ∧
      (∀ b s, s < img_src.d2 * img_src.d3 → img_mask.flatten1.at2 b s = true →
        (imgMsk.catD1 text_mask.neqOne).at2 b s = true) ∧
      (∀ b s, text_mask.at2 b s ≠ 1 →
        (imgMsk.catD1 text_mask.neqOne).at2 b
          (img_src.d2 * img_src.d3 + s) = true) := by
  obtain ⟨mem, p, msk, hib⟩ :=
    imgBranch_ok_textPresent m img_src img_mask img_pos query_embed task_idx
  obtain ⟨hd0, hd1, hd2c, hmsk0, hmsk1, hmskat, -, -⟩ :=
    imgBranch_ok_inv m img_src img_mask img_pos query_embed true task_idx mem
      (some p) none none msk hib
  have hmskd1 : msk.d1 = img_src.d2 * img_src.d3 := by rw [hmsk1, hm1, hm2]
  have hg : m.gather (some (img_src, img_mask, img_pos))
      (some (text_src, text_mask, text_pos)) query_embed task_idx =
      .ok ⟨[mem, text_src.perm102],
           [some p, some (text_pos.bcast1 text_src.d0)],
           [msk, text_mask.neqOne],
           some (T3.zerosLike (m.prefix_task_embedding_to_query_embed
             (query_embed.bcast1 text_src.d0) task_idx)),
           some (m.prefix_task_embedding_to_query_embed
             (query_embed.bcast1 text_src.d0) task_idx)⟩ := by
    have h1 : m.gather (some (img_src, img_mask, img_pos))
        (some (text_src, text_mask, text_pos)) query_embed task_idx =
        match m.imgBranch img_src img_mask img_pos query_embed true task_idx with
        | .error e => .error e
        | .ok (memory, p', msk', tgt, qe) =>
          m.textBranch ⟨[memory], [p'], [msk'], tgt, qe⟩
            (some (text_src, text_mask, text_pos)) query_embed task_idx := rfl
    rw [h1, hib]
    exact textBranch_some_ok m _ text_src text_mask text_pos query_embed task_idx hppq
  refine ⟨_, mem, msk, hg, rfl, rfl, rfl, hd0, ?_, ?_, ?_, rfl, ?_, ?_⟩
  · simp [hd0]
  · intro s b c hs
    simp [T3.catD0, hs]
  · intro s b c
    simp only [T3.catD0]
    rw [if_neg (by omega)]
    simp [T3.perm102, Nat.add_sub_cancel_left]
  · intro b s hs hpad
    simp only [M2.catD1]
    rw [if_pos (by omega)]
    rw [hmskat b s, hpad]
  · intro b s hpad
    simp only [M2.catD1, hmskd1]
    rw [if_neg (by omega)]
    simp [TI2.neqOne, Nat.add_sub_cancel_left, bne_iff_ne, hpad]

/-- Witness for C3: the concrete combined image-plus-text run. -/
theorem C3_modality_fusion_witness :
    (c4model.pass_pos_and_query = true ∧ wImg.2.1.d1 = wImg.1.d2 ∧
     wImg.2.1.d2 = wImg.1.d3) ∧
    (∃ st imgMem imgMsk,
      c4model.gather (some (wImg.1, wImg.2.1, wImg.2.2))
        (some (wText.1, wText.2.1, wText.2.2)) wQE 0 = .ok st ∧
      st.memories = [imgMem, wText.1.perm102] ∧
      st.masks = [imgMsk, wText.2.1.neqOne] ∧
      catT3 st.memories = .ok (imgMem.catD0 wText.1.perm102) ∧
      imgMem.d0 = wImg.1.d2 * wImg.1.d3 ∧
      (imgMem.catD0 wText.1.perm102).d0 = wImg.1.d2 * wImg.1.d3 + wText.1.d1 ∧
      (∀ s b c, s < imgMem.d0 →
        (imgMem.catD0 wText.1.perm102).at3 s b c = imgMem.at3 s b c) ∧
      (∀ s b c, (imgMem.catD0 wText.1.perm102).at3 (imgMem.d0 + s) b c =
        wText.1.at3 b s c) ∧
      catM2 st.masks = .ok (imgMsk.catD1 wText.2.1.neqOne) ∧
      (∀ b s, s < wImg.1.d2 * wImg.1.d3 → wImg.2.1.flatten1.at2 b s = true →
        (imgMsk.catD1 wText.2.1.neqOne).at2 b s = true) ∧
      (∀ b s, wText.2.1.at2 b s ≠ 1 →
        (imgMsk.catD1 wText.2.1.neqOne).at2 b
          (wImg.1.d2 * wImg.1.d3 + s) = true)) :=
  ⟨⟨rfl, rfl, rfl⟩,
   C3_modality_fusion c4model wImg.1 wImg.2.1 wImg.2.2 wText.1 wText.2.1
     wText.2.2 wQE 0 rfl rfl rfl⟩

/-- C4 (amended): in the image-only scenario with `share_decoders=true`, one
registered (task, dataset) pair, 2 encoder and 2 decoder layers,
`d_model_enc = d_model_dec`, channel dimension 8 and query dimension 8, the
forward call succeeds with a stack of 2 hidden-state layers of shape
(batch × num_queries × 8) each, and a memory of shape
(batch × 8 × (height·width)) — the spatial axes flattened, not restored to
rank 4. -/
theorem C4_image_only_scenario_shapes {R : Type} [Zero R] [Add R] [SMul ℚ R]
    (m : MTTransformer R) (img_src : T4 R) (img_mask : M3) (img_pos : T4 R)
    (query_embed : T2 R) (tt dn : String) (task_idx : Nat)
    (hppq : m.pass_pos_and_query = true)
    (hdd : m.d_model_enc = m.d_model_dec)
    (hnq : m.args.num_queries = [(tt, [dn])])
    (hshare : m.share_decoders = true)
    (hri : m.decoder.return_intermediate = true)
    (hlayers : m.decoder.layers.length = 2)
    (henc : m.encoder.layers.length = 2)
    (hc : img_src.d1 = 8) (hq : query_embed.d1 = 8) :
    ∃ hs memOut,
      m.forward (some (img_src, img_mask, img_pos)) none query_embed tt dn
        task_idx = .ok (hs, memOut) ∧
      hs.length = 2 ∧
      (∀ t ∈ hs, t.shape3 = [img_src.d0, query_embed.d0, 8]) ∧
      memOut.shape3 = [img_src.d0, 8, img_src.d2 * img_src.d3] := by
  obtain ⟨mem, p, msk, hib⟩ :=
    imgBranch_ok_imgOnly m img_src img_mask img_pos query_embed task_idx hppq
  obtain ⟨hd0, hd1, hd2c, -, -, -, htgtc, -⟩ :=
    imgBranch_ok_inv m img_src img_mask img_pos query_embed false task_idx mem
      (some p)
      (some (T3.zerosLike (m.prefix_task_embedding_to_query_embed
        (query_embed.bcast1 img_src.d0) task_idx)))
      (some (m.prefix_task_embedding_to_query_embed
        (query_embed.bcast1 img_src.d0) task_idx)) msk hib
  have hg : m.gather (some (img_src, img_mask, img_pos)) none query_embed task_idx =
      .ok ⟨[mem], [some p], [msk],
        some (T3.zerosLike (m.prefix_task_embedding_to_query_embed
          (query_embed.bcast1 img_src.d0) task_idx)),
        some (m.prefix_task_embedding_to_query_embed
          (query_embed.bcast1 img_src.d0) task_idx)⟩ := by
    have h1 : m.gather (some (img_src, img_mask, img_pos)) none query_embed task_idx =
        match m.imgBranch img_src img_mask img_pos query_embed false task_idx with
        | .error e => .error e
        | .ok (memory, p', msk', tgt, qe) =>
          m.textBranch ⟨[memory], [p'], [msk'], tgt, qe⟩ none query_embed
            task_idx := rfl
    rw [h1, hib]
    rfl
  have hlk : m.lookupDecoder tt dn = some m.decoder := by
    unfold MTTransformer.lookupDecoder MTTransformer.decoders buildDecoders
    rw [hnq, hshare]
    simp [List.lookup]
  have hne : m.decoder.layers ≠ [] := by
    intro hcon
    rw [hcon] at hlayers
    simp at hlayers
  obtain ⟨stack, hdf, hslen, -, hdims⟩ :=
    m.decoder.forward_inr
      (T3.zerosLike (m.prefix_task_embedding_to_query_embed
        (query_embed.bcast1 img_src.d0) task_idx)) mem msk (some p)
      (some (m.prefix_task_embedding_to_query_embed
        (query_embed.bcast1 img_src.d0) task_idx)) hri hne
  have hpost : m.postGather
      ⟨[mem], [some p], [msk],
        some (T3.zerosLike (m.prefix_task_embedding_to_query_embed
          (query_embed.bcast1 img_src.d0) task_idx)),
        some (m.prefix_task_embedding_to_query_embed
          (query_embed.bcast1 img_src.d0) task_idx)⟩ tt dn =
      .ok (stack.map (fun u => (u.perm102).dropD1 m.hs_out_begin_idx),
           mem.perm120) := by
    unfold MTTransformer.postGather
    rw [hlk]
    simp only []
    rw [show catT3 [mem] = .ok mem from rfl]
    simp only []
    rw [show catM2 [msk] = .ok msk from rfl]
    simp only []
    rw [show catPos [some p] = .ok p from rfl]
    simp only []
    rw [hdf]
  refine ⟨stack.map (fun u => (u.perm102).dropD1 m.hs_out_begin_idx),
    mem.perm120, ?_, ?_, ?_, ?_⟩
  · unfold MTTransformer.forward
    rw [hg]
    simp only []
    exact hpost
  · rw [List.length_map, hslen, hlayers]
  · intro t ht
    obtain ⟨u, hu, rfl⟩ := List.mem_map.mp ht
    obtain ⟨hu0, hu1, hu2⟩ := hdims u hu
    obtain ⟨ht0, ht1, ht2⟩ := htgtc _ rfl
    simp only [T3.shape3, dropD1_d0, dropD1_d1, dropD1_d2, perm102_d0,
      perm102_d1, perm102_d2]
    rw [hu0, hu1, hu2]
    simp only [zerosLike_d0, zerosLike_d1, zerosLike_d2] at ht0 ht1 ht2 ⊢
    rw [ht0, ht1, ht2, hq]
    unfold MTTransformer.hs_out_begin_idx
    by_cases hud : m.args.use_task_embedding_in_decoder = true <;> simp [hud]
  · simp only [T3.shape3, perm120_d0, perm120_d1, perm120_d2]
    rw [hd0, hd1, hd2c hdd, hc]

/-- Counterexample for C4: in the concrete image-only scenario
(`share_decoders=true`, one task/dataset pair, 2+2 layers, model dimension 8,
batch 1, a 2×2 spatial grid), the returned memory is a rank-3 tensor of shape
(1 × 8 × 4) — the spatial axes remain flattened — and not the rank-4
(1 × 8 × 2 × 2) tensor the claim describes (`MTTransformer.forward` returns
`memories.permute(1, 2, 0)` without the `.view(bs, c, h, w)` that only the
single-task `Transformer.forward` applies). -/
theorem C4_memory_shape_counterexample :
    c4run = .ok (exOk c4run) ∧
    (exOk c4run).2.shape3 = [1, 8, 4] ∧
    (exOk c4run).2.shape3 ≠ [1, 8, 2, 2] :=
  ⟨rfl, rfl, by decide⟩

/-- Witness for C4 (amended) at the concrete scenario instance. -/
theorem C4_image_only_scenario_shapes_witness :
    (c4model.pass_pos_and_query = true ∧
     c4model.d_model_enc = c4model.d_model_dec ∧
     c4model.args.num_queries = [("t", ["d"])] ∧
     c4model.share_decoders = true ∧
     c4model.decoder.return_intermediate = true ∧
     c4model.decoder.layers.length = 2 ∧
     c4model.encoder.layers.length = 2 ∧
     wImg.1.d1 = 8 ∧ wQE.d1 = 8) ∧
    (∃ hs memOut,
      c4model.forward (some (wImg.1, wImg.2.1, wImg.2.2)) none wQE "t" "d" 0 =
        .ok (hs, memOut) ∧
      hs.length = 2 ∧
      (∀ t ∈ hs, t.shape3 = [wImg.1.d0, wQE.d0, 8]) ∧
      memOut.shape3 = [wImg.1.d0, 8, wImg.1.d2 * wImg.1.d3]) :=
  ⟨⟨rfl, rfl, rfl, rfl, rfl, rfl, rfl, rfl, rfl⟩,
   C4_image_only_scenario_shapes c4model wImg.1 wImg.2.1 wImg.2.2 wQE "t" "d" 0
     rfl rfl rfl rfl rfl rfl rfl rfl rfl⟩

end MMF
